import Mathlib

/-!
# cmatrix: the falling-character grid, its per-frame update and its renderer

A shallow embedding of `src/cmatrix.c`.

* The global `matrix[MAX_HEIGHT][MAX_WIDTH]` is a total function from a row and a
  column to a cell. Rows and columns are natural numbers: every index the program
  forms is non-negative (`determineState` is only ever called with `row >= 1`).
* The C type `int` (`isWhite`, `runLength`, `currWidth`, `currHeight`) is `Int`.
  The program computes `runLength - 1` on a positive value, `rand() % 24 + 2`,
  `ws_row + 1` on an `unsigned short` and `col + 1` below 300, none of which can
  leave the range of `int`, and `runLength + 1` in the renderer, which leaves it only
  when `runLength` is `INT_MAX`, where C defines no result; no wrap-around is modelled.
* `rand()` reads the next element of an arbitrary infinite sequence of natural
  numbers (its results are never negative) and advances a cursor.
* `printf` calls are recorded as a list of `Emit` tokens, one per call.
* The loops of `updateMatrix` take the number of rows and of columns as arguments, so
  that the 5-row scenario of the specification runs on the same code; `updateMatrix`
  itself is the instance with `MAX_HEIGHT` and `MAX_WIDTH`.
* The indexed accesses of the update are listed by `updateMatrixAccesses`, which follows
  the statements of the C functions along the execution.
* `refUpdate` is the two-buffer reference of the update, written from the specification.
-/

namespace CMatrix

/-! ## Constants and macros -/

/-- The macro `MAX_WIDTH`. -/
def MAX_WIDTH : Nat := 300

/-- The macro `MAX_HEIGHT`. -/
def MAX_HEIGHT : Nat := 200

/-- The macro `CHARACTERS`, the string literal the glyphs are drawn from, as the
list of its characters (the terminating NUL left out). -/
def CHARACTERS : List Char :=
  "abcdefghijklmnopqrstuvwxyzABCDEFGHIJKLMNOPQRSTUVWXYZ!@#$%^&*()+=[]\x7b\x7d;:/?.>,<|\\\x27\"\x60~".toList

/-- The macro `CHAR_LIST_LENGTH`. -/
def CHAR_LIST_LENGTH : Nat := 82

/-- The expression `CHARACTERS[i]`; index 82 and beyond yield the NUL character. -/
def charAt (i : Nat) : Char := CHARACTERS.getD i (Char.ofNat 0)

/-- The macro `MIN(a, b)`, that is `((a) > (b)) ? (b) : (a)`. -/
def MIN (a b : Int) : Int := if a > b then b else a

/-- The macro `TXT_RST`. -/
def TXT_RST : String := "\x1b[0m"

/-- The array `GREENS`: the colour fade values, from darkest to brightest. -/
def GREENS : List String :=
  ["\x1b[38;5;22m", "\x1b[38;5;28m", "\x1b[38;5;34m", "\x1b[38;5;40m", "\x1b[38;5;46m"]

/-! ## The grid -/

/-- The C `struct matrixChar`. -/
structure matrixChar where
  c : Char
  isWhite : Int
  runLength : Int
deriving DecidableEq

/-- The global array `matrix`, addressed by row and column. -/
abbrev Matrix := Nat → Nat → matrixChar

/-- The assignment `matrix[row][col].c = v`. -/
def Matrix.setC (m : Matrix) (row col : Nat) (v : Char) : Matrix :=
  fun i j => if i = row ∧ j = col then { m i j with c := v } else m i j

/-- The assignment `matrix[row][col].isWhite = v`. -/
def Matrix.setIsWhite (m : Matrix) (row col : Nat) (v : Int) : Matrix :=
  fun i j => if i = row ∧ j = col then { m i j with isWhite := v } else m i j

/-- The assignment `matrix[row][col].runLength = v`. -/
def Matrix.setRunLength (m : Matrix) (row col : Nat) (v : Int) : Matrix :=
  fun i j => if i = row ∧ j = col then { m i j with runLength := v } else m i j

/-- The mutable state the update reads and writes: the grid and the random number
generator, the latter given by the sequence of its future results and a cursor. -/
structure State where
  matrix : Matrix
  draws : Nat → Nat
  next : Nat

/-- One call of `rand()`: the result and the state afterwards. -/
def rand (s : State) : Nat × State :=
  (s.draws s.next, { s with next := s.next + 1 })

/-- The statement `matrix[row][col].c = v` on the state. -/
def State.setC (s : State) (row col : Nat) (v : Char) : State :=
  { s with matrix := s.matrix.setC row col v }

/-- The statement `matrix[row][col].isWhite = v` on the state. -/
def State.setIsWhite (s : State) (row col : Nat) (v : Int) : State :=
  { s with matrix := s.matrix.setIsWhite row col v }

/-- The statement `matrix[row][col].runLength = v` on the state. -/
def State.setRunLength (s : State) (row col : Nat) (v : Int) : State :=
  { s with matrix := s.matrix.setRunLength row col v }

/-! ## Initialisation (the first loop of `main`) -/

/-- The body of the inner initialisation loop, for one `i` and one `j`. -/
def initCell (m : Matrix) (i j : Nat) : Matrix :=
  ((m.setC i j ' ').setIsWhite i j 0).setRunLength i j 0

/-- The loop `for (j = 0; j < MAX_WIDTH; j++)` of the initialisation, for one `i`. -/
def initRow (m : Matrix) (i : Nat) : Matrix :=
  (List.range MAX_WIDTH).foldl (fun acc j => initCell acc i j) m

/-- The loop `for (i = 0; i < MAX_HEIGHT; i++)` that initialises the grid in `main`. -/
def initMatrix (m : Matrix) : Matrix :=
  (List.range MAX_HEIGHT).foldl initRow m

/-! ## The update engine -/

/-- The function `determineState(row, col)`. -/
def determineState (row col : Nat) (s : State) : State :=
  if (s.matrix row col).runLength > 0 then
    let s1 := s.setIsWhite row col 0
    s1.setRunLength row col ((s1.matrix row col).runLength - 1)
  else if (s.matrix (row - 1) col).c = ' ' then
    s.setC row col ' '
  else
    let d := (rand s).1
    let s1 := (rand s).2
    let s2 := s1.setC row col (charAt (d % CHAR_LIST_LENGTH))
    let s3 := s2.setIsWhite row col (s2.matrix (row - 1) col).isWhite
    s3.setRunLength row col (s3.matrix (row - 1) col).runLength

/-- The function `determineTopState(col)`. -/
def determineTopState (col : Nat) (s : State) : State :=
  if (s.matrix 0 col).runLength > 0 then
    let s1 := s.setRunLength 0 col ((s.matrix 0 col).runLength - 1)
    s1.setIsWhite 0 col 0
  else
    let d0 := (rand s).1
    let s0 := (rand s).2
    if d0 % 40 < 1 then
      let d1 := (rand s0).1
      let s1 := (rand s0).2
      let s2 := s1.setC 0 col (charAt (d1 % CHAR_LIST_LENGTH))
      let d2 := (rand s2).1
      let s3 := (rand s2).2
      let s4 := s3.setIsWhite 0 col (if d2 % 2 < 1 then 1 else 0)
      let d3 := (rand s4).1
      let s5 := (rand s4).2
      s5.setRunLength 0 col (((d3 % 24 : Nat) : Int) + 2)
    else
      let s1 := s0.setC 0 col ' '
      s1.setIsWhite 0 col 1

/-- The inner loop of `updateMatrix`, `for (row = top; row > 0; row--)
determineState(row, col)`, started at `row = top`. -/
def rowLoop (col : Nat) : Nat → State → State
  | 0, s => s
  | row + 1, s => rowLoop col row (determineState (row + 1) col s)

/-- The outer loop of `updateMatrix`, `for (col = n - 1; col >= 0; col--)`, on a
grid of `height` rows: the argument `n` is `col + 1`, so that `0` means the loop
has ended. -/
def colLoop (height : Nat) : Nat → State → State
  | 0, s => s
  | col + 1, s =>
      colLoop height col (determineTopState col (rowLoop col (height - 1) s))

/-- The function `updateMatrix()`. -/
def updateMatrix (s : State) : State :=
  colLoop MAX_HEIGHT MAX_WIDTH s

/-! ## The renderer -/

/-- One `printf` call of `displayMatrix`. -/
inductive Emit where
  /-- The call `GO_TO_POS(row, col)`, that is `printf("\033[%d;%dH", row, col)`. -/
  | goToPos (row col : Int)
  /-- The call `printf(TXT_RST)`. -/
  | reset
  /-- The call `printf(GREENS[idx])`. -/
  | green (idx : Int)
  /-- The call `printf("%c", c)`. -/
  | glyph (c : Char)
deriving DecidableEq

/-- Whether the call prints the glyph of a cell. -/
def Emit.isGlyph : Emit → Bool
  | Emit.glyph _ => true
  | _ => false

/-- The array access `GREENS[idx]`; `none` when `idx` is outside the five entries. -/
def rampEntry (idx : Int) : Option String :=
  if 0 ≤ idx then GREENS.get? idx.toNat else none

/-- The body of the inner loop of `displayMatrix` for one cell. -/
def displayCell (m : Matrix) (row col : Nat) : List Emit :=
  [ Emit.goToPos (row : Int) ((col : Int) + 1),
    if (m row col).isWhite ≠ 0 then Emit.reset
    else Emit.green (MIN ((m row col).runLength + 1) 4),
    Emit.glyph (m row col).c ]

/-- The function `displayMatrix(currWidth, currHeight)`: both loops count upwards from
0 and stop as soon as the counter reaches the bound. -/
def displayMatrix (m : Matrix) (currWidth currHeight : Int) : List Emit :=
  (List.range currHeight.toNat).flatMap fun row =>
    (List.range currWidth.toNat).flatMap fun col => displayCell m row col

/-- The C `struct winsize` as far as the program reads it; both fields are
`unsigned short`. -/
structure winsize where
  ws_row : Nat
  ws_col : Nat

/-- The value `main` assigns to `currWidth`: `MIN(w.ws_col, MAX_WIDTH)`. -/
def currWidth (w : winsize) : Int := MIN (w.ws_col : Int) (MAX_WIDTH : Int)

/-- The value `main` assigns to `currHeight`: `MIN(w.ws_row+1, MAX_HEIGHT)`. -/
def currHeight (w : winsize) : Int := MIN ((w.ws_row : Int) + 1) (MAX_HEIGHT : Int)

/-- One pass of the inner `do` loop of `main`, the sleep and the key poll left out:
the window size `w` is what `ioctl` reported for the frame. -/
def frame (w : winsize) (s : State) : State × List Emit :=
  let s1 := updateMatrix s
  (s1, displayMatrix s1.matrix (currWidth w) (currHeight w))

/-! ## A small grid to evaluate on -/

/-- A grid that is blank except for a bright streak head `a` with three frames left at
the top of column 0, a dim streak cell `Q` with seven frames left at `(2, 1)` and a
finished cell `x` at `(2, 3)`. -/
def exampleMatrix : Matrix := fun i j =>
  if i = 0 ∧ j = 0 then ⟨'a', 1, 3⟩
  else if i = 2 ∧ j = 1 then ⟨'Q', 0, 7⟩
  else if i = 2 ∧ j = 3 then ⟨'x', 1, 0⟩
  else ⟨' ', 0, 0⟩

/-- The grid `exampleMatrix` with a generator whose results are 0, 1, 2, ... -/
def exampleState : State := ⟨exampleMatrix, fun n => n, 0⟩

/-- The state `s` with the result of the fourth call of `rand()` from now replaced
by `d`. -/
def withRunDraw (s : State) (d : Nat) : State :=
  { s with draws := Function.update s.draws (s.next + 3) d }

/-! ## The cell each step leaves behind -/

/-- The cell `determineState(row, col)` leaves at `(row, col)`, as a function of the
cell `old` found there, the cell `above` found at `(row - 1, col)` and the result `d`
of the call of `rand()` (made only in the last branch). -/
def fallCell (old above : matrixChar) (d : Nat) : matrixChar :=
  if old.runLength > 0 then
    { old with isWhite := 0, runLength := old.runLength - 1 }
  else if above.c = ' ' then
    { old with c := ' ' }
  else
    { c := charAt (d % CHAR_LIST_LENGTH), isWhite := above.isWhite, runLength := above.runLength }

/-- The cell `determineTopState(col)` leaves at `(0, col)`, as a function of the cell
`old` found there and the results `d0`, `d1`, `d2`, `d3` of the calls of `rand()`, in the
order of the calls (the first only when no run is active, the others only when the
first starts a run). -/
def topCell (old : matrixChar) (d0 d1 d2 d3 : Nat) : matrixChar :=
  if old.runLength > 0 then
    { old with isWhite := 0, runLength := old.runLength - 1 }
  else if d0 % 40 < 1 then
    { c := charAt (d1 % CHAR_LIST_LENGTH),
      isWhite := if d2 % 2 < 1 then 1 else 0,
      runLength := ((d3 % 24 : Nat) : Int) + 2 }
  else
    { old with c := ' ', isWhite := 1 }

/-! ## Repeated updates and reachable grids -/

/-- The body of the outer loop of `updateMatrix` for one column of a grid of `height`
rows: the inner loop over the rows, then `determineTopState(col)`. -/
def columnStep (height col : Nat) (s : State) : State :=
  determineTopState col (rowLoop col (height - 1) s)

/-- The state after `n` passes of the frame loop of `main`, that is after `n` calls of
`updateMatrix()`; nothing else in the loop writes the grid or calls `rand()`. -/
def updateMatrixN : Nat → State → State
  | 0, s => s
  | n + 1, s => updateMatrix (updateMatrixN n s)

/-- The state after `n` runs of the loops of `updateMatrix` with `height` and `width`
in the place of `MAX_HEIGHT` and `MAX_WIDTH`. -/
def updateGridN (height width : Nat) : Nat → State → State
  | 0, s => s
  | n + 1, s => colLoop height width (updateGridN height width n s)

/-- The global `matrix` as the program finds it at its start: zero-initialised. -/
def zeroMatrix : Matrix := fun _ _ => ⟨Char.ofNat 0, 0, 0⟩

/-- The state when the frame loop of `main` is entered: the grid initialised by the
loops of `main`, and a generator about to yield `draws 0`. -/
def initialState (draws : Nat → Nat) : State := ⟨initMatrix zeroMatrix, draws, 0⟩

/-- The cell at `(row, col)` is blank with no run, for every cell of the first `height`
rows and `width` columns: the grid the initialisation leaves. -/
def allBlank (height width : Nat) (m : Matrix) : Prop :=
  ∀ r c, r < height → c < width → m r c = ⟨' ', 0, 0⟩

/-- The bounds a cell of a reachable grid obeys: a run length from 0 to 25, a glyph that
is the space or a character of `CHARACTERS`, and no run left under a space. -/
def cellOk (x : matrixChar) : Prop :=
  0 ≤ x.runLength ∧ x.runLength ≤ 25 ∧ (x.c = ' ' ∨ x.c ∈ CHARACTERS) ∧
    (x.c = ' ' → x.runLength = 0)

/-- The invariant of the reachable grids of `height` rows and `width` columns: every
cell obeys `cellOk`, and a cell below the top row with a run left sits under a cell
that holds a glyph and has one frame less left. -/
def gridOk (height width : Nat) (m : Matrix) : Prop :=
  ∀ r c, r < height → c < width →
    cellOk (m r c) ∧
    (1 ≤ r → 0 < (m r c).runLength →
      (m (r - 1) c).runLength = (m r c).runLength - 1 ∧ (m (r - 1) c).c ≠ ' ')

/-! ## The end-to-end scenario -/

/-- The grid of the end-to-end scenario: blank everywhere but at the top of column 0,
which holds the glyph `g`, bright, with three frames left. -/
def streakMatrix (g : Char) : Matrix := fun i j =>
  if i = 0 ∧ j = 0 then ⟨g, 1, 3⟩ else ⟨' ', 0, 0⟩

/-- The scenario grid with a generator that yields `draws 0`, `draws 1`, ... -/
def streakState (g : Char) (draws : Nat → Nat) : State := ⟨streakMatrix g, draws, 0⟩

/-- The streak head of column `col` is at `row`: among the first `height` rows of the
column, `row` is the lowest one that holds a glyph other than the space. -/
def headAt (height col : Nat) (m : Matrix) (row : Nat) : Prop :=
  row < height ∧ (m row col).c ≠ ' ' ∧ ∀ r, row < r → r < height → (m r col).c = ' '

/-! ## The two-buffer reference of the update

The reference follows the specification of the update engine, not the C code: the grid
of the frame before is the buffer `old`, which is only read; every cell of the new
frame is written whole into a second buffer, the grid of the state, which is never read.
The cells are visited in the order the specification gives (every column, in it the rows
from the bottom up to row 1, then the top row), so that the draws go to the cells in the
same order as in `updateMatrix`. "Blank" is read as in the per-column rules: the glyph is
the space. -/

/-- Writing a whole cell into a buffer. -/
def Matrix.put (m : Matrix) (row col : Nat) (v : matrixChar) : Matrix :=
  fun i j => if i = row ∧ j = col then v else m i j

/-- The reference for a cell below the top row (rules 1 to 3 of the per-column
algorithm): the new cell `(row, col)` from the old cell `(row, col)` and the old cell
`(row - 1, col)`; only rule 3 draws. -/
def refState (old : Matrix) (row col : Nat) (t : State) : State :=
  if (old row col).runLength > 0 then
    { matrix := t.matrix.put row col ⟨(old row col).c, 0, (old row col).runLength - 1⟩,
      draws := t.draws,
      next := t.next }
  else if (old (row - 1) col).c = ' ' then
    { matrix := t.matrix.put row col ⟨' ', (old row col).isWhite, (old row col).runLength⟩,
      draws := t.draws,
      next := t.next }
  else
    { matrix := t.matrix.put row col
        ⟨charAt (t.draws t.next % 82), (old (row - 1) col).isWhite,
          (old (row - 1) col).runLength⟩,
      draws := t.draws,
      next := t.next + 1 }

/-- The reference for a cell of the top row (the top-row rule): a run continues; else
with one draw in 40 a run starts, with a drawn glyph, bright on one draw in 2, and a
drawn length from 2 to 25; else the cell is blank and bright. -/
def refTopState (old : Matrix) (col : Nat) (t : State) : State :=
  if (old 0 col).runLength > 0 then
    { matrix := t.matrix.put 0 col ⟨(old 0 col).c, 0, (old 0 col).runLength - 1⟩,
      draws := t.draws,
      next := t.next }
  else if t.draws t.next % 40 = 0 then
    { matrix := t.matrix.put 0 col
        ⟨charAt (t.draws (t.next + 1) % 82),
          if t.draws (t.next + 2) % 2 = 0 then 1 else 0,
          2 + ((t.draws (t.next + 3) % 24 : Nat) : Int)⟩,
      draws := t.draws,
      next := t.next + 4 }
  else
    { matrix := t.matrix.put 0 col ⟨' ', 1, (old 0 col).runLength⟩,
      draws := t.draws,
      next := t.next + 1 }

/-- The reference for the rows `top`, ..., 1 of a column, from the bottom up. -/
def refRowLoop (old : Matrix) (col : Nat) : Nat → State → State
  | 0, t => t
  | row + 1, t => refRowLoop old col row (refState old (row + 1) col t)

/-- The reference for the columns `n - 1`, ..., 0 of a grid of `height` rows. -/
def refColLoop (old : Matrix) (height : Nat) : Nat → State → State
  | 0, t => t
  | col + 1, t =>
      refColLoop old height col (refTopState old col (refRowLoop old col (height - 1) t))

/-- The two-buffer reference of `updateMatrix`: the first buffer is the grid of `s`, the
second starts as a copy of it; all 200 x 300 cells of the second are written. -/
def refUpdate (s : State) : State :=
  refColLoop s.matrix MAX_HEIGHT MAX_WIDTH s

/-! ## Columns on their own -/

/-- The step `f` works on column `c` alone: it leaves the sequence of draws as it is
and only moves the cursor forward; and from two states whose columns `c` agree and
whose coming draws agree as far as `f` consumes them, it leaves the same column `c`
and consumes the same number of draws. -/
def ColumnLocal (c : Nat) (f : State → State) : Prop :=
  (∀ s, (f s).draws = s.draws ∧ s.next ≤ (f s).next) ∧
  ∀ s s2 : State, (∀ i, s.matrix i c = s2.matrix i c) →
    (∀ k, k < (f s).next - s.next → s.draws (s.next + k) = s2.draws (s2.next + k)) →
    (∀ i, (f s).matrix i c = (f s2).matrix i c) ∧
      (f s).next - s.next = (f s2).next - s2.next

/-- The grid after column `c` alone is processed, by the body of the outer loop of
`updateMatrix`, with the draws `ds 0`, `ds 1`, ... -/
def columnOn (height c : Nat) (ds : Nat → Nat) (m : Matrix) : Matrix :=
  (columnStep height c ⟨m, ds, 0⟩).matrix

/-- The grid after the columns of `order` are processed one after the other, in the
order of the list, the column `c` with the draws `ds c 0`, `ds c 1`, ... -/
def processColumns (height : Nat) (ds : Nat → Nat → Nat) (order : List Nat)
    (m : Matrix) : Matrix :=
  order.foldl (fun acc c => columnOn height c (ds c) acc) m

/-! ## The indexed accesses of the update -/

/-- An indexed access made by the update, with the indices as the C expressions
compute them (`row - 1` is not truncated at 0). -/
inductive Access where
  /-- The access `matrix[row][col]`, read or written. -/
  | grid (row col : Int)
  /-- The access `CHARACTERS[idx]`. -/
  | alphabet (idx : Int)
deriving DecidableEq

/-- The accesses one call `determineState(row, col)` makes from the state `s`, in the
order of the statements. -/
def determineStateAccesses (row col : Nat) (s : State) : List Access :=
  Access.grid row col ::
    if (s.matrix row col).runLength > 0 then
      [Access.grid row col, Access.grid row col]
    else
      Access.grid ((row : Int) - 1) col ::
        if (s.matrix (row - 1) col).c = ' ' then
          [Access.grid row col]
        else
          [Access.alphabet ((s.draws s.next : Int) % 82), Access.grid row col,
            Access.grid ((row : Int) - 1) col, Access.grid row col,
            Access.grid ((row : Int) - 1) col, Access.grid row col]

/-- The accesses one call `determineTopState(col)` makes from the state `s`, in the
order of the statements. -/
def determineTopStateAccesses (col : Nat) (s : State) : List Access :=
  Access.grid 0 col ::
    if (s.matrix 0 col).runLength > 0 then
      [Access.grid 0 col, Access.grid 0 col]
    else if s.draws s.next % 40 < 1 then
      [Access.alphabet ((s.draws (s.next + 1) : Int) % 82), Access.grid 0 col,
        Access.grid 0 col, Access.grid 0 col]
    else
      [Access.grid 0 col, Access.grid 0 col]

/-- The accesses of the inner loop of `updateMatrix` started at `row = top`; each call
of `determineState` is followed from the state the calls before it left. -/
def rowLoopAccesses (col : Nat) : Nat → State → List Access
  | 0, _ => []
  | row + 1, s =>
      determineStateAccesses (row + 1) col s ++
        rowLoopAccesses col row (determineState (row + 1) col s)

/-- The accesses of the outer loop of `updateMatrix`; the argument `n` is `col + 1`. -/
def colLoopAccesses (height : Nat) : Nat → State → List Access
  | 0, _ => []
  | col + 1, s =>
      rowLoopAccesses col (height - 1) s ++
        (determineTopStateAccesses col (rowLoop col (height - 1) s) ++
          colLoopAccesses height col (columnStep height col s))

/-- The accesses one call of `updateMatrix()` makes from the state `s`. -/
def updateMatrixAccesses (s : State) : List Access :=
  colLoopAccesses MAX_HEIGHT MAX_WIDTH s

/-- The access stays inside a grid of `height` rows and `width` columns, or inside the
82 characters of `CHARACTERS`. -/
def Access.within (height width : Nat) : Access → Prop
  | Access.grid row col => 0 ≤ row ∧ row < height ∧ 0 ≤ col ∧ col < width
  | Access.alphabet idx => 0 ≤ idx ∧ idx < CHAR_LIST_LENGTH

/-! ## Properties -/

theorem length_CHARACTERS : CHARACTERS.length = CHAR_LIST_LENGTH := by decide

theorem charAt_mem (d : Nat) : charAt (d % CHAR_LIST_LENGTH) ∈ CHARACTERS := by
  have h : d % CHAR_LIST_LENGTH < CHARACTERS.length := by
    rw [length_CHARACTERS]
    exact Nat.mod_lt _ (by decide)
  unfold charAt
  rw [List.getD_eq_getElem _ _ h]
  exact List.getElem_mem h

/-! ### `determineState` -/

theorem determineState_other (row col : Nat) (s : State) (i j : Nat)
    (h : ¬ (i = row ∧ j = col)) :
    (determineState row col s).matrix i j = s.matrix i j := by
  unfold determineState
  split_ifs <;>
    simp [State.setC, State.setIsWhite, State.setRunLength, Matrix.setC,
      Matrix.setIsWhite, Matrix.setRunLength, rand, h]

theorem determineState_cell (row col : Nat) (s : State) (h : 1 ≤ row) :
    (determineState row col s).matrix row col =
      fallCell (s.matrix row col) (s.matrix (row - 1) col) (s.draws s.next) := by
  have hne : row - 1 ≠ row := by omega
  unfold determineState fallCell
  split_ifs <;>
    simp [State.setC, State.setIsWhite, State.setRunLength, Matrix.setC,
      Matrix.setIsWhite, Matrix.setRunLength, rand, hne]

/-! ### `rowLoop` -/

theorem rowLoop_other (col : Nat) (n : Nat) (s : State) (i j : Nat)
    (h : n < i ∨ i = 0 ∨ j ≠ col) :
    (rowLoop col n s).matrix i j = s.matrix i j := by
  induction n generalizing s with
  | zero => rfl
  | succ n ih =>
    show (rowLoop col n (determineState (n + 1) col s)).matrix i j = s.matrix i j
    rw [ih _ (by omega)]
    exact determineState_other _ _ _ _ _ (by omega)

theorem rowLoop_cell (col : Nat) (n : Nat) (s : State) (r : Nat) (h1 : 1 ≤ r)
    (h2 : r ≤ n) :
    ∃ d, (rowLoop col n s).matrix r col =
      fallCell (s.matrix r col) (s.matrix (r - 1) col) d := by
  induction n generalizing s with
  | zero => omega
  | succ n ih =>
    show ∃ d, (rowLoop col n (determineState (n + 1) col s)).matrix r col = _
    by_cases hr : r ≤ n
    · obtain ⟨d, hd⟩ := ih (determineState (n + 1) col s) hr
      refine ⟨d, ?_⟩
      rw [hd, determineState_other _ _ _ _ _ (by omega),
        determineState_other _ _ _ _ _ (by omega)]
    · have hrn : r = n + 1 := by omega
      subst hrn
      refine ⟨s.draws s.next, ?_⟩
      rw [rowLoop_other _ _ _ _ _ (by omega)]
      exact determineState_cell _ _ _ h1

/-! ### `determineTopState` -/

theorem determineTopState_other (col : Nat) (s : State) (i j : Nat)
    (h : ¬ (i = 0 ∧ j = col)) :
    (determineTopState col s).matrix i j = s.matrix i j := by
  unfold determineTopState
  dsimp only
  split_ifs <;>
    simp [State.setC, State.setIsWhite, State.setRunLength, Matrix.setC,
      Matrix.setIsWhite, Matrix.setRunLength, rand, h]

theorem determineTopState_cell (col : Nat) (s : State) :
    (determineTopState col s).matrix 0 col =
      topCell (s.matrix 0 col) (s.draws s.next) (s.draws (s.next + 1))
        (s.draws (s.next + 2)) (s.draws (s.next + 3)) := by
  unfold determineTopState topCell
  dsimp only
  split_ifs <;>
    simp_all [State.setC, State.setIsWhite, State.setRunLength, Matrix.setC,
      Matrix.setIsWhite, Matrix.setRunLength, rand]

/-! ### `colLoop` and `updateMatrix` -/

theorem colLoop_other (height : Nat) (n : Nat) (s : State) (i j : Nat) (h : n ≤ j) :
    (colLoop height n s).matrix i j = s.matrix i j := by
  induction n generalizing s with
  | zero => rfl
  | succ n ih =>
    show (colLoop height n (determineTopState n (rowLoop n (height - 1) s))).matrix i j = _
    rw [ih _ (by omega), determineTopState_other _ _ _ _ (by omega),
      rowLoop_other _ _ _ _ _ (by omega)]

theorem colLoop_cell (height : Nat) (n : Nat) (s : State) (r j : Nat) (h1 : 1 ≤ r)
    (h2 : r ≤ height - 1) (hj : j < n) :
    ∃ d, (colLoop height n s).matrix r j =
      fallCell (s.matrix r j) (s.matrix (r - 1) j) d := by
  induction n generalizing s with
  | zero => omega
  | succ n ih =>
    show ∃ d, (colLoop height n
      (determineTopState n (rowLoop n (height - 1) s))).matrix r j = _
    by_cases hjn : j < n
    · obtain ⟨d, hd⟩ := ih (determineTopState n (rowLoop n (height - 1) s)) hjn
      refine ⟨d, ?_⟩
      rw [hd, determineTopState_other _ _ _ _ (by omega),
        determineTopState_other _ _ _ _ (by omega),
        rowLoop_other _ _ _ _ _ (by omega), rowLoop_other _ _ _ _ _ (by omega)]
    · have hjn2 : j = n := by omega
      subst hjn2
      obtain ⟨d, hd⟩ := rowLoop_cell j (height - 1) s r h1 h2
      refine ⟨d, ?_⟩
      rw [colLoop_other _ _ _ _ _ (le_refl _),
        determineTopState_other _ _ _ _ (by omega), hd]

theorem colLoop_top (height : Nat) (n : Nat) (s : State) (j : Nat) (hj : j < n) :
    ∃ d0 d1 d2 d3, (colLoop height n s).matrix 0 j =
      topCell (s.matrix 0 j) d0 d1 d2 d3 := by
  induction n generalizing s with
  | zero => omega
  | succ n ih =>
    show ∃ d0 d1 d2 d3, (colLoop height n
      (determineTopState n (rowLoop n (height - 1) s))).matrix 0 j = _
    by_cases hjn : j < n
    · obtain ⟨d0, d1, d2, d3, hd⟩ :=
        ih (determineTopState n (rowLoop n (height - 1) s)) hjn
      refine ⟨d0, d1, d2, d3, ?_⟩
      rw [hd, determineTopState_other _ _ _ _ (by omega),
        rowLoop_other _ _ _ _ _ (by omega)]
    · have hjn2 : j = n := by omega
      subst hjn2
      have ht := determineTopState_cell j (rowLoop j (height - 1) s)
      rw [rowLoop_other _ _ _ _ _ (Or.inr (Or.inl rfl))] at ht
      exact ⟨_, _, _, _, by rw [colLoop_other _ _ _ _ _ (le_refl _)]; exact ht⟩

theorem updateMatrix_eq (s : State) :
    updateMatrix s = colLoop MAX_HEIGHT MAX_WIDTH s := rfl

/-- After `updateMatrix`, a cell below the top row holds what `determineState` makes
of the cell that was there and of the cell that was above it before the call. -/
theorem updateMatrix_cell (s : State) (r j : Nat) (h1 : 1 ≤ r) (h2 : r < MAX_HEIGHT)
    (hj : j < MAX_WIDTH) :
    ∃ d, (updateMatrix s).matrix r j =
      fallCell (s.matrix r j) (s.matrix (r - 1) j) d := by
  rw [updateMatrix_eq]
  exact colLoop_cell MAX_HEIGHT MAX_WIDTH s r j h1 (Nat.le_sub_one_of_lt h2) hj

/-- After `updateMatrix`, a cell of the top row holds what `determineTopState` makes
of the cell that was there before the call. -/
theorem updateMatrix_top (s : State) (j : Nat) (hj : j < MAX_WIDTH) :
    ∃ d0 d1 d2 d3, (updateMatrix s).matrix 0 j = topCell (s.matrix 0 j) d0 d1 d2 d3 := by
  rw [updateMatrix_eq]
  exact colLoop_top MAX_HEIGHT MAX_WIDTH s j hj

/-! ### The initialisation loops -/

theorem initCell_apply (m : Matrix) (i j a b : Nat) :
    initCell m i j a b = if a = i ∧ b = j then ⟨' ', 0, 0⟩ else m a b := by
  unfold initCell Matrix.setC Matrix.setIsWhite Matrix.setRunLength
  by_cases h : a = i ∧ b = j <;> simp [h]

theorem initCols_apply (m : Matrix) (i n a b : Nat) :
    (List.range n).foldl (fun acc j => initCell acc i j) m a b =
      if a = i ∧ b < n then ⟨' ', 0, 0⟩ else m a b := by
  induction n with
  | zero => simp
  | succ n ih =>
    rw [List.range_succ, List.foldl_append, List.foldl_cons, List.foldl_nil,
      initCell_apply, ih]
    by_cases h1 : a = i ∧ b = n
    · have h2 : a = i ∧ b < n + 1 := ⟨h1.1, by omega⟩
      rw [if_pos h1, if_pos h2]
    · rw [if_neg h1]
      by_cases h3 : a = i ∧ b < n
      · have h4 : a = i ∧ b < n + 1 := ⟨h3.1, by omega⟩
        rw [if_pos h3, if_pos h4]
      · have h5 : ¬ (a = i ∧ b < n + 1) := by
          rintro ⟨ha, hb⟩
          rcases Nat.lt_succ_iff_lt_or_eq.mp hb with hb | hb
          · exact h3 ⟨ha, hb⟩
          · exact h1 ⟨ha, hb⟩
        rw [if_neg h3, if_neg h5]

theorem initRows_apply (m : Matrix) (n a b : Nat) :
    (List.range n).foldl initRow m a b =
      if a < n ∧ b < MAX_WIDTH then ⟨' ', 0, 0⟩ else m a b := by
  induction n with
  | zero => simp
  | succ n ih =>
    rw [List.range_succ, List.foldl_append, List.foldl_cons, List.foldl_nil]
    show (List.range MAX_WIDTH).foldl (fun acc j => initCell acc n j) _ a b = _
    rw [initCols_apply, ih]
    by_cases h1 : a = n ∧ b < MAX_WIDTH
    · have h2 : a < n + 1 ∧ b < MAX_WIDTH := ⟨by omega, h1.2⟩
      rw [if_pos h1, if_pos h2]
    · rw [if_neg h1]
      by_cases h3 : a < n ∧ b < MAX_WIDTH
      · have h4 : a < n + 1 ∧ b < MAX_WIDTH := ⟨by omega, h3.2⟩
        rw [if_pos h3, if_pos h4]
      · have h5 : ¬ (a < n + 1 ∧ b < MAX_WIDTH) := by
          rintro ⟨ha, hb⟩
          rcases Nat.lt_succ_iff_lt_or_eq.mp ha with ha | ha
          · exact h3 ⟨ha, hb⟩
          · exact h1 ⟨ha, hb⟩
        rw [if_neg h3, if_neg h5]

/-! ### Claims on the update engine -/

/-- C1 (run monotonicity over a whole frame): a cell of the 200 x 300 grid, top row
included, whose `runLength` is `k > 0` before `updateMatrix` has `runLength = k - 1`,
`isWhite = 0` and the glyph it had before, whatever the grid and the random draws. -/
theorem updateMatrix_run_monotone (s : State) (row col : Nat) (k : Int)
    (hrow : row < MAX_HEIGHT) (hcol : col < MAX_WIDTH)
    (hk : (s.matrix row col).runLength = k) (hpos : k > 0) :
    ((updateMatrix s).matrix row col).runLength = k - 1 ∧
    ((updateMatrix s).matrix row col).isWhite = 0 ∧
    ((updateMatrix s).matrix row col).c = (s.matrix row col).c := by
  subst hk
  rcases Nat.eq_zero_or_pos row with h0 | h1
  · subst h0
    obtain ⟨d0, d1, d2, d3, hd⟩ := updateMatrix_top s col hcol
    rw [hd]
    simp [topCell, hpos]
  · obtain ⟨d, hd⟩ := updateMatrix_cell s row col h1 hrow hcol
    rw [hd]
    simp [fallCell, hpos]

/-- C1 on `exampleState`: the streak head at the top of column 0, with three frames left. -/
theorem updateMatrix_run_monotone_witness :
    ((updateMatrix exampleState).matrix 0 0).runLength = 3 - 1 ∧
    ((updateMatrix exampleState).matrix 0 0).isWhite = 0 ∧
    ((updateMatrix exampleState).matrix 0 0).c = (exampleState.matrix 0 0).c :=
  updateMatrix_run_monotone exampleState 0 0 3 (by decide) (by decide) (by decide)
    (by decide)

/-- C2 (inheritance on fall-through): for a cell `(r, c)` of the grid with `r >= 1`, if
before `updateMatrix` the cell `(r - 1, c)` holds a glyph other than space and `(r, c)`
has `runLength = 0`, then after the call `(r, c)` has the `runLength` and the `isWhite`
that `(r - 1, c)` had before the call, and its glyph is a character of `CHARACTERS`. -/
theorem updateMatrix_inherits (s : State) (r c : Nat) (hr : 1 ≤ r)
    (hrow : r < MAX_HEIGHT) (hcol : c < MAX_WIDTH)
    (habove : (s.matrix (r - 1) c).c ≠ ' ') (hrun : (s.matrix r c).runLength = 0) :
    ((updateMatrix s).matrix r c).runLength = (s.matrix (r - 1) c).runLength ∧
    ((updateMatrix s).matrix r c).isWhite = (s.matrix (r - 1) c).isWhite ∧
    ((updateMatrix s).matrix r c).c ∈ CHARACTERS := by
  obtain ⟨d, hd⟩ := updateMatrix_cell s r c hr hrow hcol
  rw [hd]
  simp [fallCell, hrun, habove, charAt_mem]

/-- C2 on `exampleState`: the cell `(1, 0)` below the streak head. -/
theorem updateMatrix_inherits_witness :
    ((updateMatrix exampleState).matrix 1 0).runLength = 3 ∧
    ((updateMatrix exampleState).matrix 1 0).isWhite = 1 ∧
    ((updateMatrix exampleState).matrix 1 0).c ∈ CHARACTERS :=
  updateMatrix_inherits exampleState 1 0 (by decide) (by decide) (by decide)
    (by decide) (by decide)

/-- C3 (blank propagation): for a cell `(r, c)` of the grid with `r >= 1`, if before
`updateMatrix` the cell `(r - 1, c)` holds a space and `(r, c)` has `runLength = 0`,
then after the call the glyph of `(r, c)` is a space. -/
theorem updateMatrix_blank_propagates (s : State) (r c : Nat) (hr : 1 ≤ r)
    (hrow : r < MAX_HEIGHT) (hcol : c < MAX_WIDTH)
    (habove : (s.matrix (r - 1) c).c = ' ') (hrun : (s.matrix r c).runLength = 0) :
    ((updateMatrix s).matrix r c).c = ' ' := by
  obtain ⟨d, hd⟩ := updateMatrix_cell s r c hr hrow hcol
  rw [hd]
  simp [fallCell, hrun, habove]

/-- C3 on `exampleState`: the finished cell `x` at `(2, 3)`, below a blank cell. -/
theorem updateMatrix_blank_propagates_witness :
    (exampleState.matrix 2 3).c = 'x' ∧ ((updateMatrix exampleState).matrix 2 3).c = ' ' :=
  ⟨by decide, updateMatrix_blank_propagates exampleState 2 3 (by decide) (by decide)
    (by decide) (by decide) (by decide)⟩

/-- C4 (top-row rule when no run is active): when the top cell of a column has
`runLength = 0`, `determineTopState` starts a run exactly when its first draw is 0
modulo 40. It then takes the glyph from `CHARACTERS` with the second draw, sets
`isWhite` to 1 when the third draw is even and to 0 otherwise, and takes the run length
from the fourth draw; in every other case it leaves a space, `isWhite = 1` and
`runLength = 0`, having drawn once. -/
theorem determineTopState_no_run (s : State) (col : Nat)
    (h0 : (s.matrix 0 col).runLength = 0) :
    (s.draws s.next % 40 = 0 →
      (determineTopState col s).matrix 0 col =
        ⟨charAt (s.draws (s.next + 1) % CHAR_LIST_LENGTH),
          if s.draws (s.next + 2) % 2 = 0 then 1 else 0,
          ((s.draws (s.next + 3) % 24 : Nat) : Int) + 2⟩ ∧
      ((determineTopState col s).matrix 0 col).c ∈ CHARACTERS ∧
      (((determineTopState col s).matrix 0 col).isWhite ≠ 0 ↔
        s.draws (s.next + 2) % 2 = 0) ∧
      (determineTopState col s).next = s.next + 4) ∧
    (s.draws s.next % 40 ≠ 0 →
      (determineTopState col s).matrix 0 col = ⟨' ', 1, 0⟩ ∧
      (determineTopState col s).next = s.next + 1) ∧
    (0 < ((determineTopState col s).matrix 0 col).runLength ↔
      s.draws s.next % 40 = 0) := by
  have hcell := determineTopState_cell col s
  have hnext : (determineTopState col s).next =
      if s.draws s.next % 40 = 0 then s.next + 4 else s.next + 1 := by
    unfold determineTopState
    dsimp only
    split_ifs <;>
      simp_all [State.setC, State.setIsWhite, State.setRunLength, rand]
  refine ⟨?_, ?_, ?_⟩
  · intro hd
    have hc : (determineTopState col s).matrix 0 col =
        ⟨charAt (s.draws (s.next + 1) % CHAR_LIST_LENGTH),
          if s.draws (s.next + 2) % 2 = 0 then 1 else 0,
          ((s.draws (s.next + 3) % 24 : Nat) : Int) + 2⟩ := by
      rw [hcell]
      simp [topCell, h0, hd]
    refine ⟨hc, ?_, ?_, ?_⟩
    · rw [hc]
      exact charAt_mem _
    · rw [hc]
      by_cases h2 : s.draws (s.next + 2) % 2 = 0 <;> simp [h2]
    · rw [hnext, if_pos hd]
  · intro hd
    refine ⟨?_, ?_⟩
    · rw [hcell]
      simp [topCell, h0, hd]
    · rw [hnext, if_neg hd]
  · rw [hcell]
    by_cases hd : s.draws s.next % 40 = 0
    · simp only [topCell, h0, hd, gt_iff_lt, lt_self_iff_false, if_false, Nat.lt_one_iff,
        if_true, iff_true]
      omega
    · simp [topCell, h0, hd]

/-- C4 on `exampleState`: the blank top cell of column 1. -/
theorem determineTopState_no_run_witness :
    (exampleState.draws exampleState.next % 40 = 0 →
      (determineTopState 1 exampleState).matrix 0 1 =
        ⟨charAt (exampleState.draws (exampleState.next + 1) % CHAR_LIST_LENGTH),
          if exampleState.draws (exampleState.next + 2) % 2 = 0 then 1 else 0,
          ((exampleState.draws (exampleState.next + 3) % 24 : Nat) : Int) + 2⟩ ∧
      ((determineTopState 1 exampleState).matrix 0 1).c ∈ CHARACTERS ∧
      (((determineTopState 1 exampleState).matrix 0 1).isWhite ≠ 0 ↔
        exampleState.draws (exampleState.next + 2) % 2 = 0) ∧
      (determineTopState 1 exampleState).next = exampleState.next + 4) ∧
    (exampleState.draws exampleState.next % 40 ≠ 0 →
      (determineTopState 1 exampleState).matrix 0 1 = ⟨' ', 1, 0⟩ ∧
      (determineTopState 1 exampleState).next = exampleState.next + 1) ∧
    (0 < ((determineTopState 1 exampleState).matrix 0 1).runLength ↔
      exampleState.draws exampleState.next % 40 = 0) :=
  determineTopState_no_run exampleState 1 (by decide)

/-- C5 (top-row bounds): whenever `determineTopState` starts a run (no run is active
and the first draw is 0 modulo 40), the `runLength` it assigns is the fourth draw
modulo 24 plus 2 and lies in [2, 25]; every integer of [2, 25] is assigned for some value
of that draw, and two values of the draw that yield the same `runLength` have the same
residue modulo 24. -/
theorem determineTopState_fresh_run_bounds (s : State) (col : Nat)
    (hno : ¬ (s.matrix 0 col).runLength > 0) (hstart : s.draws s.next % 40 < 1) :
    (2 ≤ ((determineTopState col s).matrix 0 col).runLength ∧
      ((determineTopState col s).matrix 0 col).runLength ≤ 25) ∧
    (∀ v : Int, 2 ≤ v → v ≤ 25 → ∃ d : Nat,
      ((determineTopState col (withRunDraw s d)).matrix 0 col).runLength = v) ∧
    (∀ d e : Nat,
      ((determineTopState col (withRunDraw s d)).matrix 0 col).runLength =
        ((determineTopState col (withRunDraw s e)).matrix 0 col).runLength →
      d % 24 = e % 24) := by
  have hrun : ∀ d : Nat,
      ((determineTopState col (withRunDraw s d)).matrix 0 col).runLength =
        ((d % 24 : Nat) : Int) + 2 := by
    intro d
    rw [determineTopState_cell]
    have h3 : s.next ≠ s.next + 3 := by omega
    simp [topCell, withRunDraw, hno, hstart, Function.update_noteq h3]
  refine ⟨?_, ?_, ?_⟩
  · rw [determineTopState_cell]
    simp only [topCell, hno, hstart, if_false, if_true]
    omega
  · intro v h2 h25
    refine ⟨(v - 2).toNat, ?_⟩
    rw [hrun]
    omega
  · intro d e h
    rw [hrun, hrun] at h
    omega

/-- C5 on `exampleState`: the first draw is 0, so column 1 starts a run. -/
theorem determineTopState_fresh_run_bounds_witness :
    (2 ≤ ((determineTopState 1 exampleState).matrix 0 1).runLength ∧
      ((determineTopState 1 exampleState).matrix 0 1).runLength ≤ 25) ∧
    (∀ v : Int, 2 ≤ v → v ≤ 25 → ∃ d : Nat,
      ((determineTopState 1 (withRunDraw exampleState d)).matrix 0 1).runLength = v) ∧
    (∀ d e : Nat,
      ((determineTopState 1 (withRunDraw exampleState d)).matrix 0 1).runLength =
        ((determineTopState 1 (withRunDraw exampleState e)).matrix 0 1).runLength →
      d % 24 = e % 24) :=
  determineTopState_fresh_run_bounds exampleState 1 (by decide) (by decide)

/-- C6 (initialisation): after the initialisation loops of `main`, whatever the grid held
before, every cell `(i, j)` with `i < 200` and `j < 300` has the glyph space,
`isWhite = 0` and `runLength = 0`. -/
theorem initMatrix_blank (m : Matrix) (i j : Nat) (hi : i < 200) (hj : j < 300) :
    initMatrix m i j = ⟨' ', 0, 0⟩ := by
  have hi2 : i < MAX_HEIGHT := hi
  have hj2 : j < MAX_WIDTH := hj
  unfold initMatrix
  rw [initRows_apply, if_pos ⟨hi2, hj2⟩]

/-- C6 on `exampleMatrix`: the cell `Q` at `(2, 1)` is overwritten by the blank cell. -/
theorem initMatrix_blank_witness :
    exampleMatrix 2 1 = ⟨'Q', 0, 7⟩ ∧ initMatrix exampleMatrix 2 1 = ⟨' ', 0, 0⟩ :=
  ⟨by decide, initMatrix_blank exampleMatrix 2 1 (by decide) (by decide)⟩

/-! ### The renderer -/

theorem length_flatMap_range {α : Type} (f : Nat → List α) (k : Nat)
    (hk : ∀ i, (f i).length = k) (n : Nat) :
    ((List.range n).flatMap f).length = n * k := by
  induction n with
  | zero => simp
  | succ n ih =>
    rw [List.range_succ, List.flatMap_append, List.length_append, ih,
      List.flatMap_singleton, hk, Nat.succ_mul]

theorem getElem?_flatMap_range {α : Type} (f : Nat → List α) (k : Nat)
    (hk : ∀ i, (f i).length = k) (n i j : Nat) (hi : i < n) (hj : j < k) :
    ((List.range n).flatMap f)[i * k + j]? = (f i)[j]? := by
  induction n with
  | zero => omega
  | succ n ih =>
    rw [List.range_succ, List.flatMap_append, List.flatMap_singleton]
    have hlen := length_flatMap_range f k hk n
    by_cases hin : i < n
    · have hlt : i * k + j < ((List.range n).flatMap f).length := by
        rw [hlen]
        calc i * k + j < i * k + k := by omega
          _ = (i + 1) * k := by rw [Nat.succ_mul]
          _ ≤ n * k := Nat.mul_le_mul_right k hin
      rw [List.getElem?_append_left hlt]
      exact ih hin
    · have hin2 : i = n := by omega
      subst hin2
      have hle : ((List.range i).flatMap f).length ≤ i * k + j := by
        rw [hlen]
        omega
      rw [List.getElem?_append_right hle, hlen, Nat.add_sub_cancel_left]

theorem countP_flatMap_range {α : Type} (p : α → Bool) (f : Nat → List α) (k : Nat)
    (hk : ∀ i, (f i).countP p = k) (n : Nat) :
    ((List.range n).flatMap f).countP p = n * k := by
  induction n with
  | zero => simp
  | succ n ih =>
    rw [List.range_succ, List.flatMap_append, List.countP_append, ih,
      List.flatMap_singleton, hk, Nat.succ_mul]

theorem length_displayCell (m : Matrix) (row col : Nat) :
    (displayCell m row col).length = 3 := rfl

theorem countP_displayCell (m : Matrix) (row col : Nat) :
    (displayCell m row col).countP Emit.isGlyph = 1 := by
  unfold displayCell
  by_cases h : (m row col).isWhite = 0 <;> simp [h, List.countP_cons, Emit.isGlyph]

/-- The three calls made for the cell `(row, col)` sit, in order, at position
`3 * (row * width + col)` of the output: the cells are painted row by row, and
within a row from left to right. -/
theorem displayMatrix_getElem? (m : Matrix) (currWidth currHeight : Int)
    (row col t : Nat) (hrow : row < currHeight.toNat) (hcol : col < currWidth.toNat)
    (ht : t < 3) :
    (displayMatrix m currWidth currHeight)[3 * (row * currWidth.toNat + col) + t]? =
      (displayCell m row col)[t]? := by
  have hinner : ∀ r, ((List.range currWidth.toNat).flatMap
      fun c => displayCell m r c).length = currWidth.toNat * 3 :=
    fun r => length_flatMap_range _ 3 (fun c => length_displayCell m r c) _
  have hidx : 3 * (row * currWidth.toNat + col) + t =
      row * (currWidth.toNat * 3) + (col * 3 + t) := by ring
  have hlt : col * 3 + t < currWidth.toNat * 3 := by omega
  unfold displayMatrix
  rw [hidx, getElem?_flatMap_range _ (currWidth.toNat * 3) hinner _ _ _ hrow hlt,
    getElem?_flatMap_range _ 3 (fun c => length_displayCell m row c) _ _ _ hcol ht]

theorem countP_displayMatrix (m : Matrix) (currWidth currHeight : Int) :
    (displayMatrix m currWidth currHeight).countP Emit.isGlyph =
      currWidth.toNat * currHeight.toNat := by
  unfold displayMatrix
  rw [countP_flatMap_range Emit.isGlyph _ (currWidth.toNat * 1)
    (fun r => countP_flatMap_range Emit.isGlyph _ 1 (fun c => countP_displayCell m r c) _)]
  ring

theorem displayMatrix_congr (m m2 : Matrix) (currWidth currHeight : Int)
    (h : ∀ i j, i < currHeight.toNat → j < currWidth.toNat → m2 i j = m i j) :
    displayMatrix m2 currWidth currHeight = displayMatrix m currWidth currHeight := by
  unfold displayMatrix
  rw [List.flatMap_def, List.flatMap_def]
  congr 1
  apply List.map_congr_left
  intro i hi
  rw [List.flatMap_def, List.flatMap_def]
  congr 1
  apply List.map_congr_left
  intro j hj
  unfold displayCell
  rw [h i j (List.mem_range.mp hi) (List.mem_range.mp hj)]

theorem mem_displayMatrix (m : Matrix) (currWidth currHeight : Int) (e : Emit)
    (he : e ∈ displayMatrix m currWidth currHeight) :
    ∃ row col, row < currHeight.toNat ∧ col < currWidth.toNat ∧
      e ∈ displayCell m row col := by
  unfold displayMatrix at he
  obtain ⟨row, hrow, he2⟩ := List.mem_flatMap.mp he
  obtain ⟨col, hcol, he3⟩ := List.mem_flatMap.mp he2
  exact ⟨row, col, List.mem_range.mp hrow, List.mem_range.mp hcol, he3⟩

theorem currWidth_eq (w : winsize) : currWidth w = min (w.ws_col : Int) 300 := by
  unfold currWidth MIN MAX_WIDTH
  split_ifs <;> omega

theorem currHeight_eq (w : winsize) : currHeight w = min ((w.ws_row : Int) + 1) 200 := by
  unfold currHeight MIN MAX_HEIGHT
  split_ifs <;> omega

/-! ### Claims on the renderer -/

/-- C7 (colour index clamp): for a visible cell with `isWhite = 0` and `runLength >= 0`,
the colour call of `displayMatrix` is `printf(GREENS[idx])` with
`idx = min(runLength + 1, 4)`, an index from 1 to 4; with `runLength = 100` and with
`runLength = 3` it is index 4, the same entry of `GREENS`, with `runLength = 0` it is
index 1; for a cell with `isWhite` other than 0 the call is `printf(TXT_RST)`. -/
theorem displayMatrix_color (m : Matrix) (currWidth currHeight : Int) (row col : Nat)
    (hrow : (row : Int) < currHeight) (hcol : (col : Int) < currWidth) :
    ((m row col).isWhite = 0 → 0 ≤ (m row col).runLength →
      (displayMatrix m currWidth currHeight)[3 * (row * currWidth.toNat + col) + 1]? =
        some (Emit.green (min ((m row col).runLength + 1) 4)) ∧
      1 ≤ min ((m row col).runLength + 1) 4 ∧ min ((m row col).runLength + 1) 4 ≤ 4) ∧
    ((m row col).isWhite = 0 → (m row col).runLength = 100 →
      (displayMatrix m currWidth currHeight)[3 * (row * currWidth.toNat + col) + 1]? =
        some (Emit.green 4)) ∧
    ((m row col).isWhite = 0 → (m row col).runLength = 3 →
      (displayMatrix m currWidth currHeight)[3 * (row * currWidth.toNat + col) + 1]? =
        some (Emit.green 4)) ∧
    ((m row col).isWhite = 0 → (m row col).runLength = 0 →
      (displayMatrix m currWidth currHeight)[3 * (row * currWidth.toNat + col) + 1]? =
        some (Emit.green 1)) ∧
    ((m row col).isWhite ≠ 0 →
      (displayMatrix m currWidth currHeight)[3 * (row * currWidth.toNat + col) + 1]? =
        some Emit.reset) ∧
    rampEntry (MIN (100 + 1) 4) = rampEntry (MIN (3 + 1) 4) ∧
    rampEntry (MIN (3 + 1) 4) = GREENS.get? 4 ∧ rampEntry (MIN (0 + 1) 4) = GREENS.get? 1 := by
  have hr : row < currHeight.toNat := by omega
  have hc : col < currWidth.toNat := by omega
  have hget := displayMatrix_getElem? m currWidth currHeight row col 1 hr hc (by omega)
  have hmin : ∀ x : Int, MIN (x + 1) 4 = min (x + 1) 4 := by
    intro x
    unfold MIN
    split_ifs <;> omega
  refine ⟨?_, ?_, ?_, ?_, ?_, by decide, by decide, by decide⟩
  · intro hw hrl
    refine ⟨?_, by omega, by omega⟩
    rw [hget]
    simp [displayCell, hw, hmin]
  · intro hw hrl
    rw [hget]
    simp [displayCell, hw, hrl, MIN]
  · intro hw hrl
    rw [hget]
    simp [displayCell, hw, hrl, MIN]
  · intro hw hrl
    rw [hget]
    simp [displayCell, hw, hrl, MIN]
  · intro hw
    rw [hget]
    simp [displayCell, hw]

/-- C7 on `exampleMatrix`, painted 4 wide and 3 high: the dim cell `Q` at `(2, 1)`. -/
theorem displayMatrix_color_witness :
    (exampleMatrix 2 1).isWhite = 0 ∧ (exampleMatrix 2 1).runLength = 7 ∧
    (displayMatrix exampleMatrix 4 3)[3 * (2 * (4 : Int).toNat + 1) + 1]? =
      some (Emit.green (min ((exampleMatrix 2 1).runLength + 1) 4)) :=
  ⟨by decide, by decide,
    ((displayMatrix_color exampleMatrix 4 3 2 1 (by decide) (by decide)).1
      (by decide) (by decide)).1⟩

/-- C8, as stated, fails: with 50 rows and 0 columns reported, `main` computes the
width 0, which is not 0 clamped to [1, 300], and the height 51, which is not 50
clamped to [1, 200]. -/
theorem visible_rectangle_counterexample :
    currWidth ⟨50, 0⟩ = 0 ∧ currWidth ⟨50, 0⟩ ≠ max 1 (min ((0 : Nat) : Int) 300) ∧
    currHeight ⟨50, 0⟩ = 51 ∧ currHeight ⟨50, 0⟩ ≠ max 1 (min ((50 : Nat) : Int) 200) := by
  decide

/-- C8, amended: for every reported terminal size, `main` computes the width
`min(columns, 300)`, which lies in [0, 300] and is the column count clamped to
[1, 300] exactly when at least one column is reported, and the height
`min(rows + 1, 200)`, which lies in [1, 200]. -/
theorem visible_rectangle (w : winsize) :
    currWidth w = min (w.ws_col : Int) 300 ∧
    currHeight w = min ((w.ws_row : Int) + 1) 200 ∧
    0 ≤ currWidth w ∧ currWidth w ≤ 300 ∧
    1 ≤ currHeight w ∧ currHeight w ≤ 200 ∧
    (currWidth w = max 1 (min (w.ws_col : Int) 300) ↔ 1 ≤ w.ws_col) := by
  have hw := currWidth_eq w
  have hh := currHeight_eq w
  refine ⟨hw, hh, by omega, by omega, by omega, by omega, ?_⟩
  rw [hw]
  omega

/-- C9 (rendering never leaves the grid): in every frame, whatever the reported terminal
size and the state, each cursor call of `displayMatrix` belongs to a cell `(row, col)`
with `0 <= row < 200` and `0 <= col < 300`, the output depends on no cell outside these
bounds, and exactly `currWidth * currHeight` glyphs are painted, `currWidth` and
`currHeight` being the values `main` passes; for a reported size of 500 x 500 these are
200 x 300 = 60000 glyphs. -/
theorem frame_display_in_grid (w : winsize) (s : State) :
    (∀ e ∈ (frame w s).2, ∀ r c : Int, e = Emit.goToPos r c →
      0 ≤ r ∧ r < 200 ∧ 0 ≤ c - 1 ∧ c - 1 < 300) ∧
    (∀ e ∈ (frame w s).2, ∃ row col : Nat, row < 200 ∧ col < 300 ∧
      e ∈ displayCell (frame w s).1.matrix row col) ∧
    (∀ m2 : Matrix,
      (∀ i j, i < 200 → j < 300 → m2 i j = (frame w s).1.matrix i j) →
      displayMatrix m2 (currWidth w) (currHeight w) = (frame w s).2) ∧
    (frame w s).2.countP Emit.isGlyph = (currWidth w).toNat * (currHeight w).toNat ∧
    currWidth ⟨500, 500⟩ = 300 ∧ currHeight ⟨500, 500⟩ = 200 ∧
    (frame ⟨500, 500⟩ s).2.countP Emit.isGlyph = 200 * 300 ∧
    (frame ⟨500, 500⟩ s).2.countP Emit.isGlyph = 60000 := by
  have hw := currWidth_eq w
  have hh := currHeight_eq w
  have hw2 : (currWidth w).toNat ≤ 300 := by omega
  have hh2 : (currHeight w).toNat ≤ 200 := by omega
  have hframe : ∀ v : winsize, (frame v s).2 =
      displayMatrix (updateMatrix s).matrix (currWidth v) (currHeight v) := by
    intro v
    simp only [frame]
  have hstate : (frame w s).1 = updateMatrix s := by
    simp only [frame]
  refine ⟨?_, ?_, ?_, ?_, by decide, by decide, ?_, ?_⟩
  · intro e he r c hrc
    rw [hframe] at he
    obtain ⟨row, col, hrow, hcol, hmem⟩ := mem_displayMatrix _ _ _ _ he
    subst hrc
    simp [displayCell] at hmem
    rcases hmem with ⟨h1, h2⟩ | hmem
    · omega
    · split_ifs at hmem
  · intro e he
    rw [hframe] at he
    obtain ⟨row, col, hrow, hcol, hmem⟩ := mem_displayMatrix _ _ _ _ he
    exact ⟨row, col, by omega, by omega, by rw [hstate]; exact hmem⟩
  · intro m2 hm2
    rw [hframe, hstate] at *
    exact displayMatrix_congr _ _ _ _ (fun i j hi hj => hm2 i j (by omega) (by omega))
  · rw [hframe]
    exact countP_displayMatrix _ _ _
  · rw [hframe, countP_displayMatrix]
    decide
  · rw [hframe, countP_displayMatrix]
    decide

/-- C10, as stated, fails: the first call for the top left cell is
`GO_TO_POS(0, 1)`, whose row parameter is 0, neither `row + 1` nor at least 1. -/
theorem displayMatrix_cursor_counterexample :
    (displayMatrix exampleMatrix 1 1)[3 * (0 * (1 : Int).toNat + 0)]? =
      some (Emit.goToPos 0 1) ∧
    (displayMatrix exampleMatrix 1 1)[3 * (0 * (1 : Int).toNat + 0)]? ≠
      some (Emit.goToPos (((0 : Nat) : Int) + 1) (((0 : Nat) : Int) + 1)) := by
  decide

/-- C10, amended: for every visible cell `(row, col)`, `displayMatrix` emits, at the
place of the cell in row-major order, the cursor call whose row parameter is the grid
row `row` itself (0 for the top row) and whose column parameter is `col + 1`, then the
colour call, then the glyph of the cell; nothing else is emitted. -/
theorem displayMatrix_cursor (m : Matrix) (currWidth currHeight : Int) (row col : Nat)
    (hrow : (row : Int) < currHeight) (hcol : (col : Int) < currWidth) :
    (displayMatrix m currWidth currHeight)[3 * (row * currWidth.toNat + col)]? =
      some (Emit.goToPos (row : Int) ((col : Int) + 1)) ∧
    (displayMatrix m currWidth currHeight)[3 * (row * currWidth.toNat + col) + 1]? =
      some (if (m row col).isWhite ≠ 0 then Emit.reset
        else Emit.green (MIN ((m row col).runLength + 1) 4)) ∧
    (displayMatrix m currWidth currHeight)[3 * (row * currWidth.toNat + col) + 2]? =
      some (Emit.glyph (m row col).c) ∧
    (displayMatrix m currWidth currHeight).length =
      3 * (currWidth.toNat * currHeight.toNat) := by
  have hr : row < currHeight.toNat := by omega
  have hc : col < currWidth.toNat := by omega
  have h0 := displayMatrix_getElem? m currWidth currHeight row col 0 hr hc (by omega)
  have h1 := displayMatrix_getElem? m currWidth currHeight row col 1 hr hc (by omega)
  have h2 := displayMatrix_getElem? m currWidth currHeight row col 2 hr hc (by omega)
  refine ⟨?_, ?_, ?_, ?_⟩
  · rw [← Nat.add_zero (3 * (row * currWidth.toNat + col)), h0]
    rfl
  · rw [h1]
    rfl
  · rw [h2]
    rfl
  · unfold displayMatrix
    rw [length_flatMap_range _ (currWidth.toNat * 3)
      (fun r => length_flatMap_range _ 3 (fun c => length_displayCell m r c) _)]
    ring

/-- C10, amended, on `exampleMatrix`, painted 4 wide and 3 high: the cell `(2, 1)`. -/
theorem displayMatrix_cursor_witness :
    (displayMatrix exampleMatrix 4 3)[3 * (2 * (4 : Int).toNat + 1)]? =
      some (Emit.goToPos ((2 : Nat) : Int) (((1 : Nat) : Int) + 1)) ∧
    (displayMatrix exampleMatrix 4 3)[3 * (2 * (4 : Int).toNat + 1) + 1]? =
      some (if (exampleMatrix 2 1).isWhite ≠ 0 then Emit.reset
        else Emit.green (MIN ((exampleMatrix 2 1).runLength + 1) 4)) ∧
    (displayMatrix exampleMatrix 4 3)[3 * (2 * (4 : Int).toNat + 1) + 2]? =
      some (Emit.glyph (exampleMatrix 2 1).c) ∧
    (displayMatrix exampleMatrix 4 3).length = 3 * ((4 : Int).toNat * (3 : Int).toNat) :=
  displayMatrix_cursor exampleMatrix 4 3 2 1 (by decide) (by decide)

/-! ### Claims on the alphabet and on blank propagation -/

/-- C11 (glyph alphabet): `CHARACTERS` holds exactly 82 pairwise distinct printable
ASCII characters, namely the 26 lower-case letters, the 26 upper-case letters and 30
other characters, none of them a digit or the space; its length is
`CHAR_LIST_LENGTH`, the modulus of every glyph draw, so every glyph that
`determineState` or `determineTopState` draws is a character of `CHARACTERS` and is
not the space. -/
theorem CHARACTERS_alphabet :
    CHARACTERS.length = 82 ∧ CHARACTERS.Nodup ∧
    (∀ ch ∈ CHARACTERS, 33 ≤ ch.toNat ∧ ch.toNat ≤ 126) ∧
    CHARACTERS.filter Char.isLower = "abcdefghijklmnopqrstuvwxyz".toList ∧
    CHARACTERS.filter Char.isUpper = "ABCDEFGHIJKLMNOPQRSTUVWXYZ".toList ∧
    (CHARACTERS.filter fun ch => !ch.isAlpha).length = 30 ∧
    (∀ ch ∈ CHARACTERS, ch.isDigit = false) ∧ ' ' ∉ CHARACTERS ∧
    CHARACTERS.length = CHAR_LIST_LENGTH ∧
    (∀ d : Nat, charAt (d % CHAR_LIST_LENGTH) ∈ CHARACTERS ∧
      charAt (d % CHAR_LIST_LENGTH) ≠ ' ') ∧
    (∀ (s : State) (row col : Nat), 1 ≤ row → ¬ (s.matrix row col).runLength > 0 →
      (s.matrix (row - 1) col).c ≠ ' ' →
      ((determineState row col s).matrix row col).c ∈ CHARACTERS ∧
      ((determineState row col s).matrix row col).c ≠ ' ') ∧
    (∀ (s : State) (col : Nat), ¬ (s.matrix 0 col).runLength > 0 →
      s.draws s.next % 40 < 1 →
      ((determineTopState col s).matrix 0 col).c ∈ CHARACTERS ∧
      ((determineTopState col s).matrix 0 col).c ≠ ' ') := by
  have hsp : ' ' ∉ CHARACTERS := by decide
  have hne : ∀ d : Nat, charAt (d % CHAR_LIST_LENGTH) ≠ ' ' := by
    intro d h
    exact hsp (h ▸ charAt_mem d)
  refine ⟨by decide, by decide, by decide, by decide, by decide, by decide, by decide,
    hsp, by decide, fun d => ⟨charAt_mem d, hne d⟩, ?_, ?_⟩
  · intro s row col hrow hrun habove
    rw [determineState_cell row col s hrow]
    simp only [fallCell, hrun, habove, if_false]
    exact ⟨charAt_mem _, hne _⟩
  · intro s col hrun hstart
    rw [determineTopState_cell]
    simp only [topCell, hrun, hstart, if_false, if_true]
    exact ⟨charAt_mem _, hne _⟩

/-- C20 (blank propagation changes the glyph only): when `(r, c)` with `r >= 1` has
`runLength = 0` and the cell above holds a space, `determineState` writes a space to
`(r, c)` and leaves its `isWhite` and its `runLength` as they were, whatever they were;
it changes no other cell and calls `rand()` not at all. -/
theorem determineState_blank_keeps_flags (s : State) (r c : Nat) (hr : 1 ≤ r)
    (hrun : (s.matrix r c).runLength = 0) (habove : (s.matrix (r - 1) c).c = ' ') :
    ((determineState r c s).matrix r c).isWhite = (s.matrix r c).isWhite ∧
    ((determineState r c s).matrix r c).runLength = (s.matrix r c).runLength ∧
    ((determineState r c s).matrix r c).c = ' ' ∧
    (∀ i j, ¬ (i = r ∧ j = c) → (determineState r c s).matrix i j = s.matrix i j) ∧
    (determineState r c s).next = s.next := by
  have hcell := determineState_cell r c s hr
  refine ⟨?_, ?_, ?_, fun i j h => determineState_other r c s i j h, ?_⟩
  · rw [hcell]
    simp [fallCell, hrun, habove]
  · rw [hcell]
    simp [fallCell, hrun, habove]
  · rw [hcell]
    simp [fallCell, hrun, habove]
  · unfold determineState
    simp [hrun, habove, State.setC]

/-- C20 on `exampleState`: the finished bright cell `x` at `(2, 3)` becomes a space and
stays bright (`isWhite = 1`, not the 0 of the initial blank cell). -/
theorem determineState_blank_keeps_flags_witness :
    (exampleState.matrix 2 3).isWhite = 1 ∧
    ((determineState 2 3 exampleState).matrix 2 3).isWhite =
      (exampleState.matrix 2 3).isWhite ∧
    ((determineState 2 3 exampleState).matrix 2 3).runLength =
      (exampleState.matrix 2 3).runLength ∧
    ((determineState 2 3 exampleState).matrix 2 3).c = ' ' ∧
    (∀ i j, ¬ (i = 2 ∧ j = 3) →
      (determineState 2 3 exampleState).matrix i j = exampleState.matrix i j) ∧
    (determineState 2 3 exampleState).next = exampleState.next :=
  ⟨by decide,
    determineState_blank_keeps_flags exampleState 2 3 (by decide) (by decide) (by decide)⟩

/-! ### Reachable grids -/

theorem space_not_mem_CHARACTERS : ' ' ∉ CHARACTERS := by decide

theorem charAt_ne_space (d : Nat) : charAt (d % CHAR_LIST_LENGTH) ≠ ' ' := by
  intro h
  exact space_not_mem_CHARACTERS (h ▸ charAt_mem d)

theorem initMatrix_apply (m : Matrix) (a b : Nat) :
    initMatrix m a b = if a < MAX_HEIGHT ∧ b < MAX_WIDTH then ⟨' ', 0, 0⟩ else m a b := by
  unfold initMatrix
  exact initRows_apply m MAX_HEIGHT a b

theorem allBlank_initialState (draws : Nat → Nat) :
    allBlank MAX_HEIGHT MAX_WIDTH (initialState draws).matrix := by
  intro r c hr hc
  simp only [initialState]
  rw [initMatrix_apply, if_pos ⟨hr, hc⟩]

theorem updateMatrixN_eq (n : Nat) (s : State) :
    updateMatrixN n s = updateGridN MAX_HEIGHT MAX_WIDTH n s := by
  induction n with
  | zero => rfl
  | succ n ih =>
    show updateMatrix (updateMatrixN n s) = colLoop MAX_HEIGHT MAX_WIDTH _
    rw [updateMatrix_eq, ih]

theorem updateGridN_succ (height width n : Nat) (s : State) :
    updateGridN height width (n + 1) s =
      colLoop height width (updateGridN height width n s) := rfl

theorem gridOk_of_allBlank (height width : Nat) (m : Matrix)
    (h : allBlank height width m) : gridOk height width m := by
  intro r c hr hc
  have h1 := h r c hr hc
  refine ⟨?_, ?_⟩
  · rw [h1]
    exact ⟨le_refl _, by norm_num, Or.inl rfl, fun _ => rfl⟩
  · intro _ hpos
    rw [h1] at hpos
    exact absurd hpos (lt_irrefl _)

/-- Whatever the row, a cell with a run left keeps its glyph and loses one frame. -/
theorem colLoop_run (height width : Nat) (s : State) (r c : Nat) (hr : r < height)
    (hc : c < width) (hpos : 0 < (s.matrix r c).runLength) :
    ((colLoop height width s).matrix r c).runLength = (s.matrix r c).runLength - 1 ∧
    ((colLoop height width s).matrix r c).c = (s.matrix r c).c := by
  rcases Nat.eq_zero_or_pos r with h0 | h1
  · subst h0
    obtain ⟨d0, d1, d2, d3, hd⟩ := colLoop_top height width s c hc
    rw [hd]
    simp [topCell, hpos]
  · obtain ⟨d, hd⟩ := colLoop_cell height width s r c h1 (by omega) hc
    rw [hd]
    simp [fallCell, hpos]

theorem cellOk_fallCell (old above : matrixChar) (d : Nat) (ho : cellOk old)
    (ha : cellOk above) : cellOk (fallCell old above d) := by
  obtain ⟨o1, o2, o3, o4⟩ := ho
  obtain ⟨a1, a2, a3, a4⟩ := ha
  unfold fallCell
  split_ifs with h1 h2
  · refine ⟨by show 0 ≤ old.runLength - 1; omega, by show old.runLength - 1 ≤ 25; omega,
      o3, ?_⟩
    intro hc
    have := o4 hc
    omega
  · exact ⟨o1, o2, Or.inl rfl, fun _ => by show old.runLength = 0; omega⟩
  · exact ⟨a1, a2, Or.inr (charAt_mem d), fun hc => absurd hc (charAt_ne_space d)⟩

theorem cellOk_topCell (old : matrixChar) (d0 d1 d2 d3 : Nat) (ho : cellOk old) :
    cellOk (topCell old d0 d1 d2 d3) := by
  obtain ⟨o1, o2, o3, o4⟩ := ho
  unfold topCell
  by_cases h1 : old.runLength > 0
  · rw [if_pos h1]
    refine ⟨by show 0 ≤ old.runLength - 1; omega, by show old.runLength - 1 ≤ 25; omega,
      o3, ?_⟩
    intro hc
    have := o4 hc
    omega
  · rw [if_neg h1]
    by_cases h2 : d0 % 40 < 1
    · rw [if_pos h2]
      exact ⟨by show (0 : Int) ≤ ((d3 % 24 : Nat) : Int) + 2; omega,
        by show ((d3 % 24 : Nat) : Int) + 2 ≤ 25; omega,
        Or.inr (charAt_mem d1), fun hc => absurd hc (charAt_ne_space d1)⟩
    · rw [if_neg h2]
      exact ⟨o1, o2, Or.inl rfl, fun _ => by show old.runLength = 0; omega⟩

/-- One run of the loops of `updateMatrix` keeps the invariant of the reachable grids. -/
theorem gridOk_colLoop (height width : Nat) (s : State)
    (h : gridOk height width s.matrix) :
    gridOk height width (colLoop height width s).matrix := by
  intro r c hr hc
  refine ⟨?_, ?_⟩
  · rcases Nat.eq_zero_or_pos r with h0 | h1
    · subst h0
      obtain ⟨d0, d1, d2, d3, hd⟩ := colLoop_top height width s c hc
      rw [hd]
      exact cellOk_topCell _ _ _ _ _ (h 0 c hr hc).1
    · obtain ⟨d, hd⟩ := colLoop_cell height width s r c h1 (by omega) hc
      rw [hd]
      exact cellOk_fallCell _ _ _ (h r c hr hc).1 (h (r - 1) c (by omega) hc).1
  · intro h1 hpos
    obtain ⟨d, hd⟩ := colLoop_cell height width s r c h1 (by omega) hc
    obtain ⟨ok, hrel⟩ := h r c hr hc
    obtain ⟨okA, _⟩ := h (r - 1) c (by omega) hc
    rw [hd] at hpos ⊢
    have habove : 0 < (s.matrix (r - 1) c).runLength ∧
        (fallCell (s.matrix r c) (s.matrix (r - 1) c) d).runLength =
          (s.matrix (r - 1) c).runLength ∧ (s.matrix (r - 1) c).c ≠ ' ' := by
      unfold fallCell at hpos ⊢
      split_ifs at hpos ⊢ with g1 g2
      · have hp : 0 < (s.matrix r c).runLength - 1 := hpos
        obtain ⟨e1, e2⟩ := hrel h1 g1
        exact ⟨by omega, by show (s.matrix r c).runLength - 1 = _; omega, e2⟩
      · have hp : 0 < (s.matrix r c).runLength := hpos
        exact absurd hp g1
      · exact ⟨hpos, rfl, g2⟩
    obtain ⟨p1, p2, p3⟩ := habove
    obtain ⟨q1, q2⟩ := colLoop_run height width s (r - 1) c (by omega) hc p1
    rw [q1, q2, p2]
    exact ⟨rfl, p3⟩

theorem gridOk_updateGridN (height width : Nat) (n : Nat) (s : State)
    (h : allBlank height width s.matrix) :
    gridOk height width (updateGridN height width n s).matrix := by
  induction n with
  | zero => exact gridOk_of_allBlank height width s.matrix h
  | succ n ih => exact gridOk_colLoop height width _ ih

/-- On a grid that obeys the invariant, one run of the loops of `updateMatrix` moves
the run length and the blankness of every cell one row down. -/
theorem colLoop_shift (height width : Nat) (s : State)
    (h : gridOk height width s.matrix) (r c : Nat) (h1 : 1 ≤ r) (hr : r < height)
    (hc : c < width) :
    ((colLoop height width s).matrix r c).runLength = (s.matrix (r - 1) c).runLength ∧
    (((colLoop height width s).matrix r c).c = ' ' ↔ (s.matrix (r - 1) c).c = ' ') := by
  obtain ⟨d, hd⟩ := colLoop_cell height width s r c h1 (by omega) hc
  obtain ⟨⟨o1, o2, o3, o4⟩, hrel⟩ := h r c hr hc
  obtain ⟨⟨a1, a2, a3, a4⟩, _⟩ := h (r - 1) c (by omega) hc
  rw [hd]
  unfold fallCell
  split_ifs with g1 g2
  · obtain ⟨e1, e2⟩ := hrel h1 g1
    refine ⟨by show (s.matrix r c).runLength - 1 = _; omega, ?_⟩
    show (s.matrix r c).c = ' ' ↔ _
    constructor
    · intro hc2
      have := o4 hc2
      omega
    · intro hc2
      exact absurd hc2 e2
  · refine ⟨?_, ?_⟩
    · show (s.matrix r c).runLength = _
      have := a4 g2
      omega
    · exact ⟨fun _ => g2, fun _ => rfl⟩
  · refine ⟨rfl, ?_⟩
    show charAt (d % CHAR_LIST_LENGTH) = ' ' ↔ _
    exact ⟨fun hc2 => absurd hc2 (charAt_ne_space d), fun hc2 => absurd hc2 g2⟩

/-! ### Claims on the reachable grids -/

/-- C16 (one-row-per-frame shift): in every execution from the all-blank grid, whatever
the draws, for every `t`, every column `c` and every row `r` with `1 <= r < 200`, the
`runLength` of `(r, c)` after `t + 1` calls of `updateMatrix` is the `runLength` of
`(r - 1, c)` after `t` calls, and `(r, c)` holds a space after `t + 1` calls exactly when
`(r - 1, c)` holds a space after `t` calls. -/
theorem updateMatrixN_shift (s : State)
    (hblank : ∀ i j, i < MAX_HEIGHT → j < MAX_WIDTH → s.matrix i j = ⟨' ', 0, 0⟩)
    (t r c : Nat) (h1 : 1 ≤ r) (hr : r < MAX_HEIGHT) (hc : c < MAX_WIDTH) :
    ((updateMatrixN (t + 1) s).matrix r c).runLength =
      ((updateMatrixN t s).matrix (r - 1) c).runLength ∧
    (((updateMatrixN (t + 1) s).matrix r c).c = ' ' ↔
      ((updateMatrixN t s).matrix (r - 1) c).c = ' ') := by
  have hok := gridOk_updateGridN MAX_HEIGHT MAX_WIDTH t s hblank
  rw [updateMatrixN_eq, updateMatrixN_eq, updateGridN_succ]
  exact colLoop_shift MAX_HEIGHT MAX_WIDTH _ hok r c h1 hr hc

/-- C16 on the grid `main` initialises, with the draws 0, 1, 2, ...: the cell `(1, 299)`
after four frames against the cell `(0, 299)` after three. -/
theorem updateMatrixN_shift_witness :
    ((updateMatrixN (3 + 1) (initialState fun n => n)).matrix 1 299).runLength =
      ((updateMatrixN 3 (initialState fun n => n)).matrix (1 - 1) 299).runLength ∧
    (((updateMatrixN (3 + 1) (initialState fun n => n)).matrix 1 299).c = ' ' ↔
      ((updateMatrixN 3 (initialState fun n => n)).matrix (1 - 1) 299).c = ' ') :=
  updateMatrixN_shift (initialState fun n => n) (allBlank_initialState _) 3 1 299
    (by decide) (by decide) (by decide)

/-- C18 (reachable-state invariant): in every grid reached from the all-blank grid by any
number of calls of `updateMatrix`, whatever the draws, every cell of the 200 x 300 grid has
`0 <= runLength <= 25`, a glyph that is the space or a character of `CHARACTERS`, and
`runLength = 0` if its glyph is the space. -/
theorem updateMatrixN_cell_bounds (s : State)
    (hblank : ∀ i j, i < MAX_HEIGHT → j < MAX_WIDTH → s.matrix i j = ⟨' ', 0, 0⟩)
    (t r c : Nat) (hr : r < MAX_HEIGHT) (hc : c < MAX_WIDTH) :
    0 ≤ ((updateMatrixN t s).matrix r c).runLength ∧
    ((updateMatrixN t s).matrix r c).runLength ≤ 25 ∧
    (((updateMatrixN t s).matrix r c).c = ' ' ∨
      ((updateMatrixN t s).matrix r c).c ∈ CHARACTERS) ∧
    (((updateMatrixN t s).matrix r c).c = ' ' →
      ((updateMatrixN t s).matrix r c).runLength = 0) := by
  have hok := gridOk_updateGridN MAX_HEIGHT MAX_WIDTH t s hblank
  rw [updateMatrixN_eq]
  exact (hok r c hr hc).1

/-- C18 on the grid `main` initialises, with the draws 0, 1, 2, ...: the cell `(0, 299)`,
where the first draw starts a run, after one frame. -/
theorem updateMatrixN_cell_bounds_witness :
    0 ≤ ((updateMatrixN 1 (initialState fun n => n)).matrix 0 299).runLength ∧
    ((updateMatrixN 1 (initialState fun n => n)).matrix 0 299).runLength ≤ 25 ∧
    (((updateMatrixN 1 (initialState fun n => n)).matrix 0 299).c = ' ' ∨
      ((updateMatrixN 1 (initialState fun n => n)).matrix 0 299).c ∈ CHARACTERS) ∧
    (((updateMatrixN 1 (initialState fun n => n)).matrix 0 299).c = ' ' →
      ((updateMatrixN 1 (initialState fun n => n)).matrix 0 299).runLength = 0) :=
  updateMatrixN_cell_bounds (initialState fun n => n) (allBlank_initialState _) 1 0 299
    (by decide) (by decide)

/-- C19 (ramp lookup is safe and never uses the darkest entry): in every grid reached
from the all-blank grid and for every terminal size, a visible cell with `isWhite = 0`
is painted with `printf(GREENS[idx])` where `idx = MIN(runLength + 1, 4)` lies in
[1, 4]; every colour call of `displayMatrix` that reads `GREENS` uses an index in
[1, 4], which is inside the five entries and is never 0. -/
theorem updateMatrixN_ramp_index (s : State)
    (hblank : ∀ i j, i < MAX_HEIGHT → j < MAX_WIDTH → s.matrix i j = ⟨' ', 0, 0⟩)
    (t : Nat) (w : winsize) :
    (∀ row col : Nat, (row : Int) < currHeight w → (col : Int) < currWidth w →
      ((updateMatrixN t s).matrix row col).isWhite = 0 →
      1 ≤ MIN (((updateMatrixN t s).matrix row col).runLength + 1) 4 ∧
      MIN (((updateMatrixN t s).matrix row col).runLength + 1) 4 ≤ 4 ∧
      (displayMatrix (updateMatrixN t s).matrix (currWidth w) (currHeight w))[
          3 * (row * (currWidth w).toNat + col) + 1]? =
        some (Emit.green (MIN (((updateMatrixN t s).matrix row col).runLength + 1) 4))) ∧
    (∀ e ∈ displayMatrix (updateMatrixN t s).matrix (currWidth w) (currHeight w),
      ∀ idx : Int, e = Emit.green idx →
        1 ≤ idx ∧ idx ≤ 4 ∧ idx ≠ 0 ∧ idx.toNat < GREENS.length ∧
        (rampEntry idx).isSome = true ∧ rampEntry idx ≠ rampEntry 0) := by
  have hok := gridOk_updateGridN MAX_HEIGHT MAX_WIDTH t s hblank
  rw [← updateMatrixN_eq] at hok
  have hw := currWidth_eq w
  have hh := currHeight_eq w
  have hidx : ∀ row col : Nat, row < (currHeight w).toNat → col < (currWidth w).toNat →
      1 ≤ MIN (((updateMatrixN t s).matrix row col).runLength + 1) 4 ∧
      MIN (((updateMatrixN t s).matrix row col).runLength + 1) 4 ≤ 4 := by
    intro row col hrow hcol
    have hr : row < MAX_HEIGHT := by unfold MAX_HEIGHT; omega
    have hc : col < MAX_WIDTH := by unfold MAX_WIDTH; omega
    obtain ⟨⟨o1, _⟩, _⟩ := hok row col hr hc
    unfold MIN
    split_ifs <;> omega
  refine ⟨?_, ?_⟩
  · intro row col hrow hcol hwhite
    have hr : row < (currHeight w).toNat := by omega
    have hc : col < (currWidth w).toNat := by omega
    obtain ⟨i1, i2⟩ := hidx row col hr hc
    refine ⟨i1, i2, ?_⟩
    rw [displayMatrix_getElem? _ _ _ row col 1 hr hc (by omega)]
    simp [displayCell, hwhite]
  · intro e he idx hidx2
    obtain ⟨row, col, hrow, hcol, hmem⟩ := mem_displayMatrix _ _ _ _ he
    obtain ⟨i1, i2⟩ := hidx row col hrow hcol
    subst hidx2
    have hval : idx = MIN (((updateMatrixN t s).matrix row col).runLength + 1) 4 := by
      simp only [displayCell, List.mem_cons, List.mem_singleton, List.not_mem_nil,
        or_false] at hmem
      rcases hmem with hmem | hmem | hmem
      · cases hmem
      · split_ifs at hmem
        all_goals cases hmem
        all_goals rfl
      · cases hmem
    rw [← hval] at i1 i2
    have hcases : idx = 1 ∨ idx = 2 ∨ idx = 3 ∨ idx = 4 := by omega
    refine ⟨i1, i2, by omega, ?_, ?_⟩
    · rcases hcases with h | h | h | h <;> subst h <;> decide
    · rcases hcases with h | h | h | h <;> subst h <;> exact ⟨by decide, by decide⟩

/-- C19 on the grid `main` initialises, before the first update, on a terminal of 24
rows and 80 columns: the blank cell `(0, 0)` is painted with `GREENS[1]`. -/
theorem updateMatrixN_ramp_index_witness :
    1 ≤ MIN (((updateMatrixN 0 (initialState fun n => n)).matrix 0 0).runLength + 1) 4 ∧
    MIN (((updateMatrixN 0 (initialState fun n => n)).matrix 0 0).runLength + 1) 4 ≤ 4 ∧
    (displayMatrix (updateMatrixN 0 (initialState fun n => n)).matrix (currWidth ⟨24, 80⟩)
        (currHeight ⟨24, 80⟩))[3 * (0 * (currWidth ⟨24, 80⟩).toNat + 0) + 1]? =
      some (Emit.green
        (MIN (((updateMatrixN 0 (initialState fun n => n)).matrix 0 0).runLength + 1) 4)) :=
  (updateMatrixN_ramp_index (initialState fun n => n) (allBlank_initialState _) 0
    ⟨24, 80⟩).1 0 0 (by decide) (by decide)
    (congrArg matrixChar.isWhite
      (allBlank_initialState (fun n => n) 0 0 (by decide) (by decide)))

/-! ### The end-to-end scenario -/

/-- While the streak of the scenario has not reached the bottom, after `n` updates its
head is at row `n`: a bright glyph with three frames left, with blank cells below. -/
theorem streak_descends (height width : Nat) (hw : 1 ≤ width) (s : State) (g : Char)
    (hg : g ≠ ' ') (h0 : s.matrix 0 0 = ⟨g, 1, 3⟩)
    (hrest : ∀ r, 1 ≤ r → r < height → s.matrix r 0 = ⟨' ', 0, 0⟩) (n : Nat)
    (hn : n < height) :
    ((updateGridN height width n s).matrix n 0).c ≠ ' ' ∧
    ((updateGridN height width n s).matrix n 0).runLength = 3 ∧
    ((updateGridN height width n s).matrix n 0).isWhite = 1 ∧
    (1 ≤ n → ((updateGridN height width n s).matrix n 0).c ∈ CHARACTERS) ∧
    (∀ r, n < r → r < height →
      (updateGridN height width n s).matrix r 0 = ⟨' ', 0, 0⟩) := by
  induction n with
  | zero =>
    show (s.matrix 0 0).c ≠ ' ' ∧ (s.matrix 0 0).runLength = 3 ∧
      (s.matrix 0 0).isWhite = 1 ∧ _ ∧ ∀ r, 0 < r → r < height → s.matrix r 0 = _
    rw [h0]
    exact ⟨hg, rfl, rfl, fun h => absurd h (by omega), fun r h1 h2 => hrest r h1 h2⟩
  | succ n ih =>
    obtain ⟨i1, i2, i3, _, i5⟩ := ih (by omega)
    rw [updateGridN_succ]
    have hbelow : ∀ r, n < r → r < height →
        ∃ d, (colLoop height width (updateGridN height width n s)).matrix r 0 =
          fallCell ⟨' ', 0, 0⟩ ((updateGridN height width n s).matrix (r - 1) 0) d := by
      intro r h1 h2
      obtain ⟨d, hd⟩ := colLoop_cell height width (updateGridN height width n s) r 0
        (by omega) (by omega) (by omega)
      rw [i5 r h1 h2] at hd
      exact ⟨d, hd⟩
    obtain ⟨d, hd⟩ := hbelow (n + 1) (by omega) hn
    have hd2 : (colLoop height width (updateGridN height width n s)).matrix (n + 1) 0 =
        ⟨charAt (d % CHAR_LIST_LENGTH), 1, 3⟩ := by
      rw [hd, Nat.add_sub_cancel]
      simp [fallCell, i1, i2, i3]
    refine ⟨?_, ?_, ?_, ?_, ?_⟩
    · rw [hd2]
      exact charAt_ne_space d
    · rw [hd2]
    · rw [hd2]
    · intro _
      rw [hd2]
      exact charAt_mem d
    · intro r h1 h2
      obtain ⟨e, he⟩ := hbelow r (by omega) h2
      rw [he, i5 (r - 1) (by omega) (by omega)]
      simp [fallCell]

theorem streakState_top (g : Char) (draws : Nat → Nat) :
    (streakState g draws).matrix 0 0 = ⟨g, 1, 3⟩ := by
  simp [streakState, streakMatrix]

theorem streakState_rest (g : Char) (draws : Nat → Nat) (r : Nat) (h : 1 ≤ r) :
    (streakState g draws).matrix r 0 = ⟨' ', 0, 0⟩ := by
  have hr : r ≠ 0 := by omega
  simp [streakState, streakMatrix, hr]

/-- C12, as stated, fails: on the 5 x 5 scenario grid with the glyph `a` and the draws
0, 1, 2, ..., after one update the cell `(1, 0)` is not the untouched blank cell but holds
the glyph `h` with three frames left, so the streak head is at row 1 and not at row
`min(1 - 1, 4) = 0`. -/
theorem streak_head_counterexample :
    (updateGridN 5 5 1 (streakState 'a' fun n => n)).matrix 1 0 = ⟨'h', 1, 3⟩ ∧
    (updateGridN 5 5 1 (streakState 'a' fun n => n)).matrix 1 0 ≠ ⟨' ', 0, 0⟩ ∧
    ¬ headAt 5 0 (updateGridN 5 5 1 (streakState 'a' fun n => n)).matrix (min (1 - 1) 4) := by
  have h : (updateGridN 5 5 1 (streakState 'a' fun n => n)).matrix 1 0 = ⟨'h', 1, 3⟩ := by
    set_option maxRecDepth 1000000 in decide
  refine ⟨h, ?_, ?_⟩
  · rw [h]
    decide
  · rintro ⟨_, _, hbelow⟩
    have h1 := hbelow 1 (by decide) (by decide)
    rw [h] at h1
    exact absurd h1 (by decide)

/-- C12, amended: on a grid of 5 rows that is blank but for a bright glyph with three
frames left at the top of column 0, whatever the draws, after `N` updates with
`1 <= N <= 5` the streak head of column 0, its lowest cell holding a glyph, is at row
`min(N, 4)`; after one update the cell `(0, 0)` keeps its glyph with `runLength = 2` and
`isWhite = 0`, and the cell `(1, 0)` holds a character of `CHARACTERS` with
`runLength = 3` and `isWhite = 1`. -/
theorem streak_head (g : Char) (draws : Nat → Nat) (width N : Nat) (hg : g ≠ ' ')
    (hw : 1 ≤ width) (hN1 : 1 ≤ N) (hN5 : N ≤ 5) :
    headAt 5 0 (updateGridN 5 width N (streakState g draws)).matrix (min N 4) ∧
    (updateGridN 5 width 1 (streakState g draws)).matrix 0 0 = ⟨g, 0, 2⟩ ∧
    ((updateGridN 5 width 1 (streakState g draws)).matrix 1 0).c ∈ CHARACTERS ∧
    ((updateGridN 5 width 1 (streakState g draws)).matrix 1 0).runLength = 3 ∧
    ((updateGridN 5 width 1 (streakState g draws)).matrix 1 0).isWhite = 1 := by
  have hdesc := fun n hn => streak_descends 5 width hw (streakState g draws) g hg
    (streakState_top g draws) (fun r h1 _ => streakState_rest g draws r h1) n hn
  refine ⟨?_, ?_, ?_, ?_, ?_⟩
  · by_cases h4 : N ≤ 4
    · obtain ⟨i1, _, _, _, i5⟩ := hdesc N (by omega)
      rw [min_eq_left h4]
      refine ⟨by omega, i1, ?_⟩
      intro r h1 h2
      rw [i5 r h1 h2]
    · have h5 : N = 5 := by omega
      subst h5
      obtain ⟨i1, i2, _, _, _⟩ := hdesc 4 (by omega)
      obtain ⟨_, q2⟩ := colLoop_run 5 width (updateGridN 5 width 4 (streakState g draws))
        4 0 (by omega) (by omega) (by rw [i2]; norm_num)
      refine ⟨by decide, ?_, ?_⟩
      · rw [updateGridN_succ, show min 5 4 = 4 from rfl, q2]
        exact i1
      · intro r h1 h2
        rw [show min 5 4 = 4 from rfl] at h1
        omega
  · obtain ⟨d0, d1, d2, d3, hd⟩ := colLoop_top 5 width (streakState g draws) 0 (by omega)
    rw [show updateGridN 5 width 1 (streakState g draws) =
      colLoop 5 width (streakState g draws) from rfl, hd, streakState_top]
    simp [topCell]
  · exact (hdesc 1 (by omega)).2.2.2.1 (le_refl 1)
  · exact (hdesc 1 (by omega)).2.1
  · exact (hdesc 1 (by omega)).2.2.1

/-- C12, amended, on the 5 x 5 scenario grid with the glyph `a` and the draws 0, 1, 2, ...,
after three updates. -/
theorem streak_head_witness :
    headAt 5 0 (updateGridN 5 5 3 (streakState 'a' fun n => n)).matrix (min 3 4) ∧
    (updateGridN 5 5 1 (streakState 'a' fun n => n)).matrix 0 0 = ⟨'a', 0, 2⟩ ∧
    ((updateGridN 5 5 1 (streakState 'a' fun n => n)).matrix 1 0).c ∈ CHARACTERS ∧
    ((updateGridN 5 5 1 (streakState 'a' fun n => n)).matrix 1 0).runLength = 3 ∧
    ((updateGridN 5 5 1 (streakState 'a' fun n => n)).matrix 1 0).isWhite = 1 :=
  streak_head 'a' (fun n => n) 5 3 (by decide) (by decide) (by decide) (by decide)

/-- C13 (end-to-end descent): on a grid of at least 5 rows, the 200 x 300 grid of the
program included, that is blank but for a bright glyph with three frames left at the top
of column 0, whatever the draws, after 5 updates the cell `(4, 0)` holds a character of
`CHARACTERS`, hence no space: the glyph drawn when the streak reached row 4, with two
frames left. -/
theorem streak_reaches_row_four (g : Char) (draws : Nat → Nat) (height width : Nat)
    (hg : g ≠ ' ') (hh : 5 ≤ height) (hw : 1 ≤ width) :
    ((updateGridN height width 5 (streakState g draws)).matrix 4 0).c ∈ CHARACTERS ∧
    ((updateGridN height width 5 (streakState g draws)).matrix 4 0).c ≠ ' ' ∧
    ((updateGridN height width 5 (streakState g draws)).matrix 4 0).runLength = 2 ∧
    ((updateGridN height width 5 (streakState g draws)).matrix 4 0).c =
      ((updateGridN height width 4 (streakState g draws)).matrix 4 0).c ∧
    ((updateMatrixN 5 (streakState g draws)).matrix 4 0).c ∈ CHARACTERS := by
  have key : ∀ h w : Nat, 5 ≤ h → 1 ≤ w →
      ((updateGridN h w 5 (streakState g draws)).matrix 4 0).c ∈ CHARACTERS ∧
      ((updateGridN h w 5 (streakState g draws)).matrix 4 0).c ≠ ' ' ∧
      ((updateGridN h w 5 (streakState g draws)).matrix 4 0).runLength = 2 ∧
      ((updateGridN h w 5 (streakState g draws)).matrix 4 0).c =
        ((updateGridN h w 4 (streakState g draws)).matrix 4 0).c := by
    intro h w h5 h1
    obtain ⟨i1, i2, _, i4, _⟩ := streak_descends h w h1 (streakState g draws) g hg
      (streakState_top g draws) (fun r hr _ => streakState_rest g draws r hr) 4 (by omega)
    obtain ⟨q1, q2⟩ := colLoop_run h w (updateGridN h w 4 (streakState g draws))
      4 0 (by omega) (by omega) (by rw [i2]; norm_num)
    rw [updateGridN_succ, q1, q2, i2]
    exact ⟨i4 (by norm_num), i1, by norm_num, rfl⟩
  obtain ⟨k1, k2, k3, k4⟩ := key height width hh hw
  refine ⟨k1, k2, k3, k4, ?_⟩
  rw [updateMatrixN_eq]
  exact (key MAX_HEIGHT MAX_WIDTH (by decide) (by decide)).1

/-- C13 on the 5 x 5 scenario grid with the glyph `a` and the draws 0, 1, 2, ... -/
theorem streak_reaches_row_four_witness :
    ((updateGridN 5 5 5 (streakState 'a' fun n => n)).matrix 4 0).c ∈ CHARACTERS ∧
    ((updateGridN 5 5 5 (streakState 'a' fun n => n)).matrix 4 0).c ≠ ' ' ∧
    ((updateGridN 5 5 5 (streakState 'a' fun n => n)).matrix 4 0).runLength = 2 ∧
    ((updateGridN 5 5 5 (streakState 'a' fun n => n)).matrix 4 0).c =
      ((updateGridN 5 5 4 (streakState 'a' fun n => n)).matrix 4 0).c ∧
    ((updateMatrixN 5 (streakState 'a' fun n => n)).matrix 4 0).c ∈ CHARACTERS :=
  streak_reaches_row_four 'a' (fun n => n) 5 5 (by decide) (by decide) (by decide)

/-! ### The in-place update against the two-buffer reference -/

theorem State.eq_of (a b : State) (hm : ∀ i j, a.matrix i j = b.matrix i j)
    (hd : a.draws = b.draws) (hn : a.next = b.next) : a = b := by
  cases a with
  | mk am ad an =>
    cases b with
    | mk bm bd bn =>
      have h1 : am = bm := funext fun i => funext fun j => hm i j
      simp only at hd hn
      subst h1 hd hn
      rfl

theorem determineState_draws (row col : Nat) (s : State) :
    (determineState row col s).draws = s.draws := by
  unfold determineState
  split_ifs <;> rfl

theorem determineState_next (row col : Nat) (s : State) :
    (determineState row col s).next =
      if (s.matrix row col).runLength > 0 then s.next
      else if (s.matrix (row - 1) col).c = ' ' then s.next else s.next + 1 := by
  unfold determineState
  split_ifs <;> rfl

theorem determineTopState_draws (col : Nat) (s : State) :
    (determineTopState col s).draws = s.draws := by
  unfold determineTopState
  dsimp only
  split_ifs <;> rfl

theorem determineTopState_next (col : Nat) (s : State) :
    (determineTopState col s).next =
      if (s.matrix 0 col).runLength > 0 then s.next
      else if s.draws s.next % 40 < 1 then s.next + 4 else s.next + 1 := by
  unfold determineTopState
  dsimp only [rand]
  split_ifs <;> rfl

theorem refState_other (old : Matrix) (row col : Nat) (t : State) (i j : Nat)
    (h : ¬ (i = row ∧ j = col)) : (refState old row col t).matrix i j = t.matrix i j := by
  unfold refState
  split_ifs <;> simp [Matrix.put, h]

theorem refTopState_other (old : Matrix) (col : Nat) (t : State) (i j : Nat)
    (h : ¬ (i = 0 ∧ j = col)) : (refTopState old col t).matrix i j = t.matrix i j := by
  unfold refTopState
  split_ifs <;> simp [Matrix.put, h]

/-- Where the cell and the cell above it still hold their old values, `determineState`
does what the reference does. -/
theorem determineState_eq_refState (old : Matrix) (row col : Nat) (u : State)
    (h1 : 1 ≤ row) (hc : u.matrix row col = old row col)
    (ha : u.matrix (row - 1) col = old (row - 1) col) :
    determineState row col u = refState old row col u := by
  apply State.eq_of
  · intro i j
    by_cases hij : i = row ∧ j = col
    · obtain ⟨hi, hj⟩ := hij
      subst hi hj
      rw [determineState_cell i j u h1, hc, ha]
      unfold fallCell refState
      split_ifs <;> simp [Matrix.put, CHAR_LIST_LENGTH]
    · rw [determineState_other _ _ _ _ _ hij, refState_other _ _ _ _ _ _ hij]
  · rw [determineState_draws]
    unfold refState
    split_ifs <;> rfl
  · rw [determineState_next, hc, ha]
    unfold refState
    split_ifs <;> rfl

/-- Where the top cell still holds its old value, `determineTopState` does what the
reference does. -/
theorem determineTopState_eq_refTopState (old : Matrix) (col : Nat) (u : State)
    (hc : u.matrix 0 col = old 0 col) :
    determineTopState col u = refTopState old col u := by
  apply State.eq_of
  · intro i j
    by_cases hij : i = 0 ∧ j = col
    · obtain ⟨hi, hj⟩ := hij
      subst hi hj
      rw [determineTopState_cell, hc]
      unfold topCell refTopState
      by_cases g1 : (old 0 j).runLength > 0
      · simp [g1, Matrix.put]
      · by_cases g2 : u.draws u.next % 40 = 0
        · simp [g1, g2, Matrix.put, CHAR_LIST_LENGTH, add_comm]
        · simp [g1, g2, Matrix.put]
    · rw [determineTopState_other _ _ _ _ hij, refTopState_other _ _ _ _ _ hij]
  · rw [determineTopState_draws]
    unfold refTopState
    split_ifs <;> rfl
  · rw [determineTopState_next, hc]
    unfold refTopState
    by_cases g1 : (old 0 col).runLength > 0
    · simp [g1]
    · by_cases g2 : u.draws u.next % 40 = 0
      · simp [g1, g2]
      · simp [g1, g2]

theorem rowLoop_eq_refRowLoop (old : Matrix) (col n : Nat) (u : State)
    (h : ∀ i, i ≤ n → u.matrix i col = old i col) :
    rowLoop col n u = refRowLoop old col n u := by
  induction n generalizing u with
  | zero => rfl
  | succ n ih =>
    show rowLoop col n (determineState (n + 1) col u) =
      refRowLoop old col n (refState old (n + 1) col u)
    rw [determineState_eq_refState old (n + 1) col u (by omega) (h _ (le_refl _))
      (h _ (by omega))]
    apply ih
    intro i hi
    rw [refState_other _ _ _ _ _ _ (by omega)]
    exact h i (by omega)

theorem colLoop_eq_refColLoop (old : Matrix) (height n : Nat) (u : State)
    (h : ∀ i j, j < n → u.matrix i j = old i j) :
    colLoop height n u = refColLoop old height n u := by
  induction n generalizing u with
  | zero => rfl
  | succ n ih =>
    show colLoop height n (determineTopState n (rowLoop n (height - 1) u)) =
      refColLoop old height n (refTopState old n (refRowLoop old n (height - 1) u))
    have hrow := rowLoop_eq_refRowLoop old n (height - 1) u
      (fun i _ => h i n (by omega))
    have htop : (rowLoop n (height - 1) u).matrix 0 n = old 0 n := by
      rw [rowLoop_other _ _ _ _ _ (Or.inr (Or.inl rfl))]
      exact h 0 n (by omega)
    rw [determineTopState_eq_refTopState old n _ htop, hrow]
    apply ih
    intro i j hj
    rw [refTopState_other _ _ _ _ _ (by omega), ← hrow,
      rowLoop_other _ _ _ _ _ (by omega)]
    exact h i j (by omega)

/-- C15 (the in-place update equals a synchronous update): for every grid and every
sequence of draws, `updateMatrix`, which rewrites the grid in place from the bottom row
of each column up to the top, leaves the state the two-buffer reference leaves, in which
every new cell is computed from the old cell and the old cell above it and the draws go
to the same cells: the same grid and the same position in the sequence of draws. -/
theorem updateMatrix_eq_refUpdate (s : State) :
    updateMatrix s = refUpdate s ∧
    (∀ r c, (updateMatrix s).matrix r c = (refUpdate s).matrix r c) ∧
    (updateMatrix s).next = (refUpdate s).next := by
  have h : updateMatrix s = refUpdate s := by
    rw [updateMatrix_eq]
    exact colLoop_eq_refColLoop s.matrix MAX_HEIGHT MAX_WIDTH s (fun _ _ _ => rfl)
  exact ⟨h, fun r c => by rw [h], by rw [h]⟩

/-! ### Columns on their own -/

theorem columnLocal_comp (c : Nat) (f g : State → State) (hf : ColumnLocal c f)
    (hg : ColumnLocal c g) : ColumnLocal c (fun s => g (f s)) := by
  obtain ⟨f1, f2⟩ := hf
  obtain ⟨g1, g2⟩ := hg
  refine ⟨?_, ?_⟩
  · intro s
    obtain ⟨a1, a2⟩ := f1 s
    obtain ⟨b1, b2⟩ := g1 (f s)
    show (g (f s)).draws = s.draws ∧ s.next ≤ (g (f s)).next
    exact ⟨by rw [b1, a1], by omega⟩
  · intro s s2 hcol hdraws
    obtain ⟨a1, a2⟩ := f1 s
    obtain ⟨b1, b2⟩ := g1 (f s)
    obtain ⟨a1', a2'⟩ := f1 s2
    obtain ⟨b1', b2'⟩ := g1 (f s2)
    have hdraws : ∀ k, k < (g (f s)).next - s.next →
        s.draws (s.next + k) = s2.draws (s2.next + k) := hdraws
    obtain ⟨p1, p2⟩ := f2 s s2 hcol (fun k hk => hdraws k (by omega))
    have hd2 : ∀ k, k < (g (f s)).next - (f s).next →
        (f s).draws ((f s).next + k) = (f s2).draws ((f s2).next + k) := by
      intro k hk
      have e1 : (f s).next + k = s.next + (((f s).next - s.next) + k) := by omega
      have e2 : (f s2).next + k = s2.next + (((f s).next - s.next) + k) := by omega
      rw [a1, a1', e1, e2]
      exact hdraws _ (by omega)
    obtain ⟨q1, q2⟩ := g2 (f s) (f s2) p1 hd2
    show (∀ i, (g (f s)).matrix i c = (g (f s2)).matrix i c) ∧
      (g (f s)).next - s.next = (g (f s2)).next - s2.next
    exact ⟨q1, by omega⟩

theorem columnLocal_determineState (row c : Nat) (h1 : 1 ≤ row) :
    ColumnLocal c (determineState row c) := by
  refine ⟨?_, ?_⟩
  · intro s
    refine ⟨determineState_draws row c s, ?_⟩
    rw [determineState_next]
    split_ifs <;> omega
  · intro s s2 hcol hdraws
    rw [determineState_next, determineState_next] at *
    rw [← hcol row, ← hcol (row - 1)]
    refine ⟨?_, ?_⟩
    · intro i
      by_cases hi : i = row
      · subst hi
        rw [determineState_cell i c s h1, determineState_cell i c s2 h1, ← hcol i,
          ← hcol (i - 1)]
        unfold fallCell
        by_cases g1 : (s.matrix i c).runLength > 0
        · simp [g1]
        · by_cases g2 : (s.matrix (i - 1) c).c = ' '
          · simp [g1, g2]
          · have hd := hdraws 0 (by simp [g1, g2])
            simp only [Nat.add_zero] at hd
            simp [g1, g2, hd]
      · rw [determineState_other _ _ _ _ _ (by tauto),
          determineState_other _ _ _ _ _ (by tauto)]
        exact hcol i
    · split_ifs <;> omega

theorem columnLocal_determineTopState (c : Nat) : ColumnLocal c (determineTopState c) := by
  refine ⟨?_, ?_⟩
  · intro s
    refine ⟨determineTopState_draws c s, ?_⟩
    rw [determineTopState_next]
    split_ifs <;> omega
  · intro s s2 hcol hdraws
    rw [determineTopState_next] at hdraws
    by_cases g1 : (s.matrix 0 c).runLength > 0
    · have g1' : (s2.matrix 0 c).runLength > 0 := by rw [← hcol 0]; exact g1
      refine ⟨?_, ?_⟩
      · intro i
        by_cases hi : i = 0
        · subst hi
          rw [determineTopState_cell, determineTopState_cell, ← hcol 0]
          simp [topCell, g1]
        · rw [determineTopState_other _ _ _ _ (by tauto),
            determineTopState_other _ _ _ _ (by tauto)]
          exact hcol i
      · rw [determineTopState_next, determineTopState_next, if_pos g1, if_pos g1']
        omega
    · have g1' : ¬ (s2.matrix 0 c).runLength > 0 := by rw [← hcol 0]; exact g1
      rw [if_neg g1] at hdraws
      have hd0 : s.draws s.next = s2.draws s2.next := by
        have := hdraws 0 (by split_ifs <;> omega)
        simpa using this
      by_cases g2 : s.draws s.next % 40 < 1
      · have g2' : s2.draws s2.next % 40 < 1 := by rw [← hd0]; exact g2
        rw [if_pos g2] at hdraws
        have hd1 := hdraws 1 (by omega)
        have hd2 := hdraws 2 (by omega)
        have hd3 := hdraws 3 (by omega)
        refine ⟨?_, ?_⟩
        · intro i
          by_cases hi : i = 0
          · subst hi
            rw [determineTopState_cell, determineTopState_cell, ← hcol 0, ← hd0, ← hd1,
              ← hd2, ← hd3]
          · rw [determineTopState_other _ _ _ _ (by tauto),
              determineTopState_other _ _ _ _ (by tauto)]
            exact hcol i
        · rw [determineTopState_next, determineTopState_next, if_neg g1, if_neg g1',
            if_pos g2, if_pos g2']
          omega
      · have g2' : ¬ s2.draws s2.next % 40 < 1 := by rw [← hd0]; exact g2
        refine ⟨?_, ?_⟩
        · intro i
          by_cases hi : i = 0
          · subst hi
            rw [determineTopState_cell, determineTopState_cell, ← hcol 0]
            simp [topCell, g1, g2, g2']
          · rw [determineTopState_other _ _ _ _ (by tauto),
              determineTopState_other _ _ _ _ (by tauto)]
            exact hcol i
        · rw [determineTopState_next, determineTopState_next, if_neg g1, if_neg g1',
            if_neg g2, if_neg g2']
          omega

theorem columnLocal_rowLoop (c n : Nat) : ColumnLocal c (rowLoop c n) := by
  induction n with
  | zero =>
    exact ⟨fun s => ⟨rfl, le_refl _⟩, fun s s2 hcol _ => ⟨hcol, by
      show s.next - s.next = s2.next - s2.next
      omega⟩⟩
  | succ n ih =>
    have h : rowLoop c (n + 1) = fun s => rowLoop c n (determineState (n + 1) c s) :=
      funext fun _ => rfl
    rw [h]
    exact columnLocal_comp c (determineState (n + 1) c) (rowLoop c n)
      (columnLocal_determineState (n + 1) c (by omega)) ih

theorem columnLocal_columnStep (height c : Nat) : ColumnLocal c (columnStep height c) := by
  have h : columnStep height c =
      fun s => determineTopState c (rowLoop c (height - 1) s) := funext fun _ => rfl
  rw [h]
  exact columnLocal_comp c (rowLoop c (height - 1)) (determineTopState c)
    (columnLocal_rowLoop c (height - 1)) (columnLocal_determineTopState c)

theorem columnStep_other (height c : Nat) (s : State) (i j : Nat) (h : j ≠ c) :
    (columnStep height c s).matrix i j = s.matrix i j := by
  unfold columnStep
  rw [determineTopState_other _ _ _ _ (by tauto), rowLoop_other _ _ _ _ _ (by tauto)]

theorem colLoop_succ (height col : Nat) (s : State) :
    colLoop height (col + 1) s = colLoop height col (columnStep height col s) := rfl

theorem columnOn_other (height c : Nat) (ds : Nat → Nat) (m : Matrix) (i j : Nat)
    (h : j ≠ c) : columnOn height c ds m i j = m i j := by
  unfold columnOn
  rw [columnStep_other _ _ _ _ _ h]

theorem columnOn_congr (height c : Nat) (ds : Nat → Nat) (m m2 : Matrix)
    (hcol : ∀ i, m i c = m2 i c) (i : Nat) :
    columnOn height c ds m i c = columnOn height c ds m2 i c := by
  unfold columnOn
  exact ((columnLocal_columnStep height c).2 ⟨m, ds, 0⟩ ⟨m2, ds, 0⟩ hcol
    (fun _ _ => rfl)).1 i

theorem columnStep_eq_columnOn (height c : Nat) (s : State) (i : Nat) :
    (columnStep height c s).matrix i c =
      columnOn height c (fun k => s.draws (s.next + k)) s.matrix i c := by
  unfold columnOn
  refine ((columnLocal_columnStep height c).2 s ⟨s.matrix, fun k => s.draws (s.next + k), 0⟩
    (fun _ => rfl) ?_).1 i
  intro k _
  show s.draws (s.next + k) = s.draws (s.next + (0 + k))
  rw [Nat.zero_add]

theorem processColumns_apply (height : Nat) (ds : Nat → Nat → Nat) (order : List Nat)
    (hnd : order.Nodup) (m : Matrix) (i j : Nat) :
    processColumns height ds order m i j =
      if j ∈ order then columnOn height j (ds j) m i j else m i j := by
  induction order generalizing m with
  | nil => simp [processColumns]
  | cons c rest ih =>
    obtain ⟨hc, hrest⟩ := List.nodup_cons.mp hnd
    show processColumns height ds rest (columnOn height c (ds c) m) i j = _
    rw [ih hrest]
    by_cases hj : j ∈ rest
    · have hjc : j ≠ c := fun h => hc (h ▸ hj)
      rw [if_pos hj, if_pos (List.mem_cons_of_mem c hj)]
      exact columnOn_congr height j (ds j) _ _
        (fun r => columnOn_other height c (ds c) m r j hjc) i
    · rw [if_neg hj]
      by_cases hjc : j = c
      · subst hjc
        rw [if_pos (List.mem_cons_self j rest)]
      · have hnot : j ∉ c :: rest := by
          intro hmem
          rcases List.mem_cons.mp hmem with h | h
          · exact hjc h
          · exact hj h
        rw [if_neg hnot]
        exact columnOn_other height c (ds c) m i j hjc

/-- The loops of `updateMatrix` leave in every column what the column step alone makes
of the column as it was, on the draws that fall to the column. -/
theorem colLoop_columns (height n : Nat) (s : State) :
    ∃ ds : Nat → Nat → Nat, ∀ i j, (colLoop height n s).matrix i j =
      if j < n then columnOn height j (ds j) s.matrix i j else s.matrix i j := by
  induction n generalizing s with
  | zero => exact ⟨fun _ _ => 0, fun i j => by simp [colLoop]⟩
  | succ n ih =>
    obtain ⟨ds1, h1⟩ := ih (columnStep height n s)
    refine ⟨fun j => if j = n then fun k => s.draws (s.next + k) else ds1 j, ?_⟩
    intro i j
    rw [colLoop_succ, h1]
    by_cases hj : j < n
    · have hjn : j ≠ n := by omega
      rw [if_pos hj, if_pos (by omega : j < n + 1)]
      simp only [hjn, if_false]
      exact columnOn_congr height j (ds1 j) _ _
        (fun r => columnStep_other height n s r j hjn) i
    · rw [if_neg hj]
      by_cases hjn : j = n
      · subst hjn
        rw [if_pos (by omega : j < j + 1)]
        simp only [if_true]
        exact columnStep_eq_columnOn height j s i
      · rw [if_neg (by omega : ¬ j < n + 1)]
        exact columnStep_other height n s i j hjn

/-- C14 (column independence): the part of `updateMatrix` that processes a column `c`
changes no cell of another column; the column it leaves, and the number of draws it
consumes, are the same from any two states whose columns `c` agree and whose coming
draws agree as far as they are consumed; hence, each column being given its own
draws, processing a set of columns in any order yields the same grid, and with the
draws that fall to each column in `updateMatrix`, processing the 300 columns in any
order yields the grid `updateMatrix` yields. -/
theorem updateMatrix_columns_independent (s : State) (c : Nat) :
    colLoop MAX_HEIGHT (c + 1) s = colLoop MAX_HEIGHT c (columnStep MAX_HEIGHT c s) ∧
    (∀ i j, j ≠ c → (columnStep MAX_HEIGHT c s).matrix i j = s.matrix i j) ∧
    (∀ s2 : State, (∀ i, s.matrix i c = s2.matrix i c) →
      (∀ k, k < (columnStep MAX_HEIGHT c s).next - s.next →
        s.draws (s.next + k) = s2.draws (s2.next + k)) →
      (∀ i, (columnStep MAX_HEIGHT c s).matrix i c =
        (columnStep MAX_HEIGHT c s2).matrix i c) ∧
      (columnStep MAX_HEIGHT c s).next - s.next =
        (columnStep MAX_HEIGHT c s2).next - s2.next) ∧
    (∀ (ds : Nat → Nat → Nat) (order order2 : List Nat), order.Nodup →
      order.Perm order2 →
      processColumns MAX_HEIGHT ds order s.matrix =
        processColumns MAX_HEIGHT ds order2 s.matrix) ∧
    (∃ ds : Nat → Nat → Nat, ∀ order : List Nat, order.Perm (List.range MAX_WIDTH) →
      processColumns MAX_HEIGHT ds order s.matrix = (updateMatrix s).matrix) := by
  refine ⟨colLoop_succ MAX_HEIGHT c s, fun i j h => columnStep_other MAX_HEIGHT c s i j h,
    fun s2 h1 h2 => (columnLocal_columnStep MAX_HEIGHT c).2 s s2 h1 h2, ?_, ?_⟩
  · intro ds order order2 hnd hperm
    funext i j
    rw [processColumns_apply MAX_HEIGHT ds order hnd,
      processColumns_apply MAX_HEIGHT ds order2 (hperm.nodup_iff.mp hnd)]
    by_cases hj : j ∈ order
    · rw [if_pos hj, if_pos (hperm.mem_iff.mp hj)]
    · rw [if_neg hj, if_neg (fun h => hj (hperm.mem_iff.mpr h))]
  obtain ⟨ds, hds⟩ := colLoop_columns MAX_HEIGHT MAX_WIDTH s
  refine ⟨ds, ?_⟩
  intro order hperm
  have hnd : order.Nodup := hperm.nodup_iff.mpr (List.nodup_range MAX_WIDTH)
  funext i j
  rw [processColumns_apply MAX_HEIGHT ds order hnd, updateMatrix_eq, hds]
  have hmem : j ∈ order ↔ j < MAX_WIDTH := by
    rw [hperm.mem_iff, List.mem_range]
  by_cases hj : j < MAX_WIDTH
  · rw [if_pos hj, if_pos (hmem.mpr hj)]
  · rw [if_neg hj, if_neg (fun h => hj (hmem.mp h))]

/-! ### The indexed accesses of the update -/

theorem determineStateAccesses_within (height width row col : Nat) (s : State)
    (h1 : 1 ≤ row) (hr : row < height) (hc : col < width) :
    ∀ a ∈ determineStateAccesses row col s, a.within height width := by
  have hg : (Access.grid row col).within height width :=
    ⟨by omega, by omega, by omega, by omega⟩
  have hu : (Access.grid ((row : Int) - 1) col).within height width :=
    ⟨by omega, by omega, by omega, by omega⟩
  have ha : (Access.alphabet ((s.draws s.next : Int) % 82)).within height width := by
    show 0 ≤ (s.draws s.next : Int) % 82 ∧ (s.draws s.next : Int) % 82 < CHAR_LIST_LENGTH
    unfold CHAR_LIST_LENGTH
    omega
  intro a hmem
  have hcases : a = Access.grid row col ∨ a = Access.grid ((row : Int) - 1) col ∨
      a = Access.alphabet ((s.draws s.next : Int) % 82) := by
    unfold determineStateAccesses at hmem
    split_ifs at hmem <;>
      simp only [List.mem_cons, List.mem_singleton, List.not_mem_nil, or_false] at hmem <;>
      tauto
  rcases hcases with h | h | h <;> subst h <;> assumption

theorem determineTopStateAccesses_within (height width col : Nat) (s : State)
    (hr : 0 < height) (hc : col < width) :
    ∀ a ∈ determineTopStateAccesses col s, a.within height width := by
  have hg : (Access.grid 0 col).within height width :=
    ⟨by omega, by omega, by omega, by omega⟩
  have ha : (Access.alphabet ((s.draws (s.next + 1) : Int) % 82)).within height width := by
    show 0 ≤ (s.draws (s.next + 1) : Int) % 82 ∧
      (s.draws (s.next + 1) : Int) % 82 < CHAR_LIST_LENGTH
    unfold CHAR_LIST_LENGTH
    omega
  intro a hmem
  have hcases : a = Access.grid 0 col ∨
      a = Access.alphabet ((s.draws (s.next + 1) : Int) % 82) := by
    unfold determineTopStateAccesses at hmem
    split_ifs at hmem <;>
      simp only [List.mem_cons, List.mem_singleton, List.not_mem_nil, or_false] at hmem <;>
      tauto
  rcases hcases with h | h <;> subst h <;> assumption

theorem rowLoopAccesses_within (height width col n : Nat) (s : State) (hn : n < height)
    (hc : col < width) : ∀ a ∈ rowLoopAccesses col n s, a.within height width := by
  induction n generalizing s with
  | zero =>
    intro a hmem
    exact absurd hmem (List.not_mem_nil a)
  | succ n ih =>
    intro a hmem
    rcases List.mem_append.mp hmem with h | h
    · exact determineStateAccesses_within height width (n + 1) col s (by omega) hn hc a h
    · exact ih _ (by omega) a h

theorem colLoopAccesses_within (height width n : Nat) (s : State) (hh : 0 < height)
    (hn : n ≤ width) : ∀ a ∈ colLoopAccesses height n s, a.within height width := by
  induction n generalizing s with
  | zero =>
    intro a hmem
    exact absurd hmem (List.not_mem_nil a)
  | succ n ih =>
    intro a hmem
    rcases List.mem_append.mp hmem with h | h
    · exact rowLoopAccesses_within height width n (height - 1) s (by omega) (by omega) a h
    · rcases List.mem_append.mp h with h | h
      · exact determineTopStateAccesses_within height width n _ hh (by omega) a h
      · exact ih _ (by omega) a h

theorem grid_zero_mem_colLoopAccesses (height n : Nat) (s : State) (hn : 0 < n) :
    Access.grid 0 0 ∈ colLoopAccesses height n s := by
  induction n generalizing s with
  | zero => omega
  | succ n ih =>
    show Access.grid 0 0 ∈ rowLoopAccesses n (height - 1) s ++
      (determineTopStateAccesses n (rowLoop n (height - 1) s) ++
        colLoopAccesses height n (columnStep height n s))
    rcases Nat.eq_zero_or_pos n with h0 | hpos
    · subst h0
      refine List.mem_append_right _ (List.mem_append_left _ ?_)
      unfold determineTopStateAccesses
      exact List.mem_cons_self _ _
    · exact List.mem_append_right _ (List.mem_append_right _ (ih _ hpos))

theorem grid_last_mem_colLoopAccesses (height n : Nat) (s : State) (hh : 2 ≤ height) :
    Access.grid ((height - 1 : Nat) : Int) (n : Int) ∈ colLoopAccesses height (n + 1) s := by
  show _ ∈ rowLoopAccesses n (height - 1) s ++ _
  refine List.mem_append_left _ ?_
  obtain ⟨k, hk⟩ : ∃ k, height - 1 = k + 1 := ⟨height - 2, by omega⟩
  rw [hk]
  show _ ∈ determineStateAccesses (k + 1) n s ++ _
  refine List.mem_append_left _ ?_
  unfold determineStateAccesses
  exact List.mem_cons_self _ _

/-- C17 (the update never indexes out of bounds): for every grid and every sequence of
draws, every access `matrix[row][col]` made during `updateMatrix`, by `determineState`
and `determineTopState`, has `0 <= row < 200` and `0 <= col < 300`, the reads of
`row - 1` included, and every access `CHARACTERS[idx]` has `0 <= idx < 82`, inside
the 82 characters; the corner cells `(0, 0)` and `(199, 299)` are among the cells
accessed. -/
theorem updateMatrix_accesses_in_bounds (s : State) :
    (∀ a ∈ updateMatrixAccesses s,
      (∀ row col : Int, a = Access.grid row col →
        0 ≤ row ∧ row < 200 ∧ 0 ≤ col ∧ col < 300) ∧
      (∀ idx : Int, a = Access.alphabet idx →
        0 ≤ idx ∧ idx < 82 ∧ idx.toNat < CHARACTERS.length)) ∧
    Access.grid 0 0 ∈ updateMatrixAccesses s ∧
    Access.grid 199 299 ∈ updateMatrixAccesses s := by
  refine ⟨?_, ?_, ?_⟩
  · intro a hmem
    have hw := colLoopAccesses_within MAX_HEIGHT MAX_WIDTH MAX_WIDTH s (by decide)
      (le_refl _) a hmem
    refine ⟨?_, ?_⟩
    · intro row col h
      subst h
      obtain ⟨w1, w2, w3, w4⟩ := hw
      have e1 : ((MAX_HEIGHT : Nat) : Int) = 200 := rfl
      have e2 : ((MAX_WIDTH : Nat) : Int) = 300 := rfl
      rw [e1] at w2
      rw [e2] at w4
      exact ⟨w1, w2, w3, w4⟩
    · intro idx h
      subst h
      obtain ⟨w1, w2⟩ := hw
      have e1 : ((CHAR_LIST_LENGTH : Nat) : Int) = 82 := rfl
      rw [e1] at w2
      have e2 : CHARACTERS.length = 82 := by decide
      refine ⟨w1, w2, ?_⟩
      rw [e2]
      omega
  · exact grid_zero_mem_colLoopAccesses MAX_HEIGHT MAX_WIDTH s (by decide)
  · exact grid_last_mem_colLoopAccesses MAX_HEIGHT 299 s (by decide)

end CMatrix
